import Mathlib

/-!
Shallow embedding of `kitty/key_encoding.py` (the kitty keyboard protocol
codec, shortcut parser and matcher).

Modelling conventions:
* Python `str` values are modelled as `List Char`.  Python `str.split(sep)`
  is `List.splitOn sep`, which has the same semantics (splitting the empty
  string yields `[[]]`, separators at the ends yield empty pieces).
* Python `int` is modelled as `Int`; the bitwise operators `&`, `|`, `~`
  on Python integers are two's-complement operations on unbounded integers,
  modelled by `pyAnd`, `pyOr`, `pyNot` below (written with `Nat` bitwise
  primitives so that the kernel can evaluate them).
* Python `int(s)` on a decimal digit string is modelled by `parseNat`;
  conversions that Python would reject raise `ValueError`, modelled as
  `none`.  (Python's `int` also accepts signs, surrounding whitespace and
  underscores; such payloads are not exercised by this development and are
  treated as errors.)
* Python `chr(n)` is modelled by `chr`, which requires a valid Unicode
  scalar value.  (Python additionally accepts lone surrogates, which Lean's
  `Char` cannot represent; payloads containing surrogate code points are
  treated as errors here.)
* Fallible code (Python exceptions) is modelled with `Option`: `none`
  stands for a raised exception.
* Python dicts with compile-time contents are association lists; `get` is
  `alist_get` (first match; keys of all tables are pairwise distinct).
-/

/-- Association-list lookup, modelling Python `dict.get` for the static
tables of the module (whose keys are pairwise distinct). -/
def alist_get {α β : Type} [DecidableEq α] : List (α × β) → α → Option β
  | [], _ => none
  | (k, v) :: rest, x => if x = k then some v else alist_get rest x

/-- Two's-complement bitwise NOT on unbounded integers: Python `~a`. -/
def pyNot (a : Int) : Int := -a - 1

/-- Two's-complement bitwise AND on unbounded integers: Python `a & b`.
Written via `Nat` bitwise primitives so the kernel can compute it. -/
def pyAnd (a b : Int) : Int :=
  if 0 ≤ a then
    if 0 ≤ b then (a.toNat &&& b.toNat : Nat)
    else (a.toNat - (a.toNat &&& (-b - 1).toNat) : Nat)
  else
    if 0 ≤ b then (b.toNat - (b.toNat &&& (-a - 1).toNat) : Nat)
    else -(((-a - 1).toNat ||| (-b - 1).toNat : Nat) : Int) - 1

/-- Two's-complement bitwise OR on unbounded integers: Python `a | b`. -/
def pyOr (a b : Int) : Int :=
  if 0 ≤ a then
    if 0 ≤ b then (a.toNat ||| b.toNat : Nat)
    else -(((-b - 1).toNat - ((-b - 1).toNat &&& a.toNat) : Nat) : Int) - 1
  else
    if 0 ≤ b then -(((-a - 1).toNat - ((-a - 1).toNat &&& b.toNat) : Nat) : Int) - 1
    else -(((-a - 1).toNat &&& (-b - 1).toNat : Nat) : Int) - 1

/-- Decimal digit character for `n < 10`. -/
def digitChar (n : Nat) : Char := Char.ofNat (48 + n)

/-- Fuel-driven decimal rendering of a natural number (auxiliary for
`natToStr`; structural recursion keeps it kernel-computable). -/
def natToStrAux : Nat → Nat → List Char
  | 0, _ => []
  | fuel + 1, n =>
    if n < 10 then [digitChar n] else natToStrAux fuel (n / 10) ++ [digitChar (n % 10)]

/-- Decimal rendering of a natural number, modelling Python `str(n)` /
f-string interpolation of a nonnegative int. -/
def natToStr (n : Nat) : List Char := natToStrAux (n + 1) n

/-- Python `int(s)` restricted to nonempty decimal digit strings; other
inputs raise `ValueError`, modelled as `none`. -/
def parseNat (s : List Char) : Option Nat :=
  if s ≠ [] ∧ s.all Char.isDigit then
    some (s.foldl (fun a c => 10 * a + (c.toNat - 48)) 0)
  else none

/-- Python `chr(n)`: the character with code point `n` (must be a valid
Unicode scalar value for Lean's `Char`). -/
def chr (n : Nat) : Option Char :=
  if Nat.isValidChar n then some (Char.ofNat n) else none

/-- Python `':'.join(pieces)`. -/
def joinColon : List (List Char) → List Char
  | [] => []
  | [x] => x
  | x :: xs => x ++ ':' :: joinColon xs

/-- Python `s.upper()` (the tokens handled by this module are ASCII or
case-less, where per-character upper-casing agrees with Python). -/
def upper (s : List Char) : List Char := s.map Char.toUpper

/-- `functional_key_number_to_name_map` of `key_encoding.py`. -/
def functional_key_number_to_name_map : List (Nat × List Char) := [
  (57344, "ESCAPE".toList),
  (57345, "ENTER".toList),
  (57346, "TAB".toList),
  (57347, "BACKSPACE".toList),
  (57348, "INSERT".toList),
  (57349, "DELETE".toList),
  (57350, "LEFT".toList),
  (57351, "RIGHT".toList),
  (57352, "UP".toList),
  (57353, "DOWN".toList),
  (57354, "PAGE_UP".toList),
  (57355, "PAGE_DOWN".toList),
  (57356, "HOME".toList),
  (57357, "END".toList),
  (57358, "CAPS_LOCK".toList),
  (57359, "SCROLL_LOCK".toList),
  (57360, "NUM_LOCK".toList),
  (57361, "PRINT_SCREEN".toList),
  (57362, "PAUSE".toList),
  (57363, "MENU".toList),
  (57364, "F1".toList),
  (57365, "F2".toList),
  (57366, "F3".toList),
  (57367, "F4".toList),
  (57368, "F5".toList),
  (57369, "F6".toList),
  (57370, "F7".toList),
  (57371, "F8".toList),
  (57372, "F9".toList),
  (57373, "F10".toList),
  (57374, "F11".toList),
  (57375, "F12".toList),
  (57376, "F13".toList),
  (57377, "F14".toList),
  (57378, "F15".toList),
  (57379, "F16".toList),
  (57380, "F17".toList),
  (57381, "F18".toList),
  (57382, "F19".toList),
  (57383, "F20".toList),
  (57384, "F21".toList),
  (57385, "F22".toList),
  (57386, "F23".toList),
  (57387, "F24".toList),
  (57388, "F25".toList),
  (57389, "F26".toList),
  (57390, "F27".toList),
  (57391, "F28".toList),
  (57392, "F29".toList),
  (57393, "F30".toList),
  (57394, "F31".toList),
  (57395, "F32".toList),
  (57396, "F33".toList),
  (57397, "F34".toList),
  (57398, "F35".toList),
  (57399, "KP_0".toList),
  (57400, "KP_1".toList),
  (57401, "KP_2".toList),
  (57402, "KP_3".toList),
  (57403, "KP_4".toList),
  (57404, "KP_5".toList),
  (57405, "KP_6".toList),
  (57406, "KP_7".toList),
  (57407, "KP_8".toList),
  (57408, "KP_9".toList),
  (57409, "KP_DECIMAL".toList),
  (57410, "KP_DIVIDE".toList),
  (57411, "KP_MULTIPLY".toList),
  (57412, "KP_SUBTRACT".toList),
  (57413, "KP_ADD".toList),
  (57414, "KP_ENTER".toList),
  (57415, "KP_EQUAL".toList),
  (57416, "KP_SEPARATOR".toList),
  (57417, "KP_LEFT".toList),
  (57418, "KP_RIGHT".toList),
  (57419, "KP_UP".toList),
  (57420, "KP_DOWN".toList),
  (57421, "KP_PAGE_UP".toList),
  (57422, "KP_PAGE_DOWN".toList),
  (57423, "KP_HOME".toList),
  (57424, "KP_END".toList),
  (57425, "KP_INSERT".toList),
  (57426, "KP_DELETE".toList),
  (57427, "MEDIA_PLAY".toList),
  (57428, "MEDIA_PAUSE".toList),
  (57429, "MEDIA_PLAY_PAUSE".toList),
  (57430, "MEDIA_REVERSE".toList),
  (57431, "MEDIA_STOP".toList),
  (57432, "MEDIA_FAST_FORWARD".toList),
  (57433, "MEDIA_REWIND".toList),
  (57434, "MEDIA_TRACK_NEXT".toList),
  (57435, "MEDIA_TRACK_PREVIOUS".toList),
  (57436, "MEDIA_RECORD".toList),
  (57437, "LOWER_VOLUME".toList),
  (57438, "RAISE_VOLUME".toList),
  (57439, "MUTE_VOLUME".toList),
  (57440, "LEFT_SHIFT".toList),
  (57441, "LEFT_CONTROL".toList),
  (57442, "LEFT_ALT".toList),
  (57443, "LEFT_SUPER".toList),
  (57444, "LEFT_HYPER".toList),
  (57445, "RIGHT_SHIFT".toList),
  (57446, "RIGHT_CONTROL".toList),
  (57447, "RIGHT_ALT".toList),
  (57448, "RIGHT_SUPER".toList),
  (57449, "RIGHT_HYPER".toList),
  (57450, "ISO_LEVEL3_SHIFT".toList),
  (57451, "ISO_LEVEL5_SHIFT".toList)]

/-- `csi_number_to_functional_number_map` of `key_encoding.py`. -/
def csi_number_to_functional_number_map : List (Nat × Nat) := [
  (2, 57348),
  (3, 57349),
  (5, 57354),
  (6, 57355),
  (7, 57356),
  (8, 57357),
  (9, 57346),
  (11, 57364),
  (12, 57365),
  (13, 57345),
  (14, 57367),
  (15, 57368),
  (17, 57369),
  (18, 57370),
  (19, 57371),
  (20, 57372),
  (21, 57373),
  (23, 57374),
  (24, 57375),
  (27, 57344),
  (127, 57347)]

/-- `letter_trailer_to_csi_number_map` of `key_encoding.py`. -/
def letter_trailer_to_csi_number_map : List (Char × Nat) :=
  [('A', 57352), ('B', 57353), ('C', 57351), ('D', 57350), ('F', 8),
   ('H', 7), ('P', 11), ('Q', 12), ('R', 13), ('S', 14)]

/-- `tilde_trailers` of `key_encoding.py`. -/
def tilde_trailers : List Nat :=
  [57348, 57349, 57354, 57355, 57368, 57369, 57370, 57371, 57372, 57373, 57374, 57375]

/-- `get_name_to_functional_number_map` (the inverse of
`functional_key_number_to_name_map`; names are pairwise distinct, so the
association-list inverse is the dict comprehension of the source). -/
def get_name_to_functional_number_map : List (List Char × Nat) :=
  functional_key_number_to_name_map.map (fun p => (p.2, p.1))

/-- `get_functional_to_csi_number_map` (the inverse of
`csi_number_to_functional_number_map`). -/
def get_functional_to_csi_number_map : List (Nat × Nat) :=
  csi_number_to_functional_number_map.map (fun p => (p.2, p.1))

/-- `get_csi_number_to_letter_trailer_map` (the inverse of
`letter_trailer_to_csi_number_map`). -/
def get_csi_number_to_letter_trailer_map : List (Nat × Char) :=
  letter_trailer_to_csi_number_map.map (fun p => (p.2, p.1))

/-- `SHIFT` modifier bit. -/
def SHIFT : Int := 1

/-- `ALT` modifier bit. -/
def ALT : Int := 2

/-- `CTRL` modifier bit. -/
def CTRL : Int := 4

/-- `SUPER` modifier bit. -/
def SUPER : Int := 8

/-- `config_mod_map` of `key_encoding.py`. -/
def config_mod_map : List (List Char × Int) := [
  ("SHIFT".toList, SHIFT),
  ("ALT".toList, ALT),
  ("OPTION".toList, ALT),
  ("⌥".toList, ALT),
  ("⌘".toList, SUPER),
  ("CMD".toList, SUPER),
  ("SUPER".toList, SUPER),
  ("CTRL".toList, CTRL),
  ("CONTROL".toList, CTRL)]

/-- The sentinel modifier value `SUPER << 8` used for unknown modifier
tokens. -/
def super_sentinel : Int := 2048

/-- Event types `PRESS`/`REPEAT`/`RELEASE` (an `IntEnum` in the source). -/
inductive EventType
  | PRESS
  | REPEAT
  | RELEASE
deriving DecidableEq, Repr

/-- The integer value of an `EventType` (`PRESS=1, REPEAT=2, RELEASE=4`). -/
def EventType.toNat : EventType → Nat
  | .PRESS => 1
  | .REPEAT => 2
  | .RELEASE => 4

/-- `ParsedShortcut` (from `kitty.types`): a `(mods, key_name)` pair. -/
structure ParsedShortcut where
  mods : Int
  key_name : List Char
deriving DecidableEq, Repr

/-- The trailing-`+` normalization step of `parse_shortcut`: a spec ending
in `+` has that `+` replaced by the literal token `plus`. -/
def normalize_plus (spec : List Char) : List Char :=
  if spec.getLast? = some '+' then spec.dropLast ++ "plus".toList else spec

/-- The alias-lookup step of `parse_shortcut`:
`aliases.get(key_name.upper(), key_name)`. -/
def apply_alias (aliases : List Char → Option (List Char)) (key_name : List Char) : List Char :=
  (aliases (upper key_name)).getD key_name

/-- The key-resolution steps of `parse_shortcut`: apply the functional
alias table, upper-case functional names, otherwise apply the character
alias table. -/
def resolve_key (fal cal : List Char → Option (List Char)) (key_name : List Char) : List Char :=
  if (alist_get get_name_to_functional_number_map (upper (apply_alias fal key_name))).isSome then
    upper (apply_alias fal key_name)
  else (cal (upper (apply_alias fal key_name))).getD (apply_alias fal key_name)

/-- The modifier computation of `parse_shortcut`: OR together the values
of the leading tokens, unknown tokens contributing `SUPER << 8`. -/
def shortcut_mods (parts : List (List Char)) : Int :=
  if 1 < parts.length then
    (parts.dropLast.map (fun x => (alist_get config_mod_map (upper x)).getD super_sentinel)).foldl
      pyOr 0
  else 0

/-- `parse_shortcut` of `key_encoding.py`: normalize a trailing `+`,
split on `+`, resolve the final token as the key and the rest as
modifiers.  The two alias tables `functional_key_name_aliases` and
`character_key_name_aliases` come from `kitty.key_names`, which is
outside the sources; they are parameters (`fal`, `cal`), modelling
arbitrary externally supplied alias maps. -/
def parse_shortcut (fal cal : List Char → Option (List Char)) (spec : List Char) :
    ParsedShortcut :=
  ⟨shortcut_mods ((normalize_plus spec).splitOn '+'),
   resolve_key fal cal (((normalize_plus spec).splitOn '+').getLastD [])⟩

/-- `KeyEvent` of `key_encoding.py`. -/
structure KeyEvent where
  type : EventType := EventType.PRESS
  mods : Int := 0
  key : List Char := []
  text : List Char := []
  shifted_key : List Char := []
  alternate_key : List Char := []
  shift : Bool := false
  alt : Bool := false
  ctrl : Bool := false
  super : Bool := false
deriving DecidableEq, Repr

/-- `KeyEvent.matches` of `key_encoding.py` (taking an already-parsed
shortcut; the string overload is `matches_str` below).  `types` defaults to
`PRESS | REPEAT = 3` in the source and is passed explicitly here. -/
def KeyEvent.matches (self : KeyEvent) (spec : ParsedShortcut) (types : Nat) : Bool :=
  if self.type.toNat &&& types = 0 then false
  else if (if !self.shifted_key.isEmpty && self.shift then pyAnd self.mods (pyNot SHIFT)
           else self.mods) ≠ spec.mods then false
  else decide ((if !self.shifted_key.isEmpty && self.shift then self.shifted_key
                else self.key) = spec.key_name)

/-- `KeyEvent.matches` applied to a spec given as a string (the
`isinstance(spec, str)` branch of the source). -/
def KeyEvent.matches_str (self : KeyEvent) (fal cal : List Char → Option (List Char))
    (spec : List Char) (types : Nat) : Bool :=
  self.matches (parse_shortcut fal cal spec) types

/-- Parse the colon-separated pieces of one section: each piece is an
integer, the empty piece defaulting to `missing` (the generator inside
`get_sub_sections`). -/
def parse_sub_sections (missing : Nat) : List (List Char) → Option (List Nat)
  | [] => some []
  | y :: rest =>
    (if y = [] then some missing else parseNat y).bind fun v =>
    (parse_sub_sections missing rest).bind fun vs =>
    some (v :: vs)

/-- `get_sub_sections` (nested in `decode_key_event`): split a section on
`:` and parse each piece as an integer, empty pieces defaulting to
`missing`. -/
def get_sub_sections (x : List Char) (missing : Nat) : Option (List Nat) :=
  parse_sub_sections missing (x.splitOn ':')

/-- Python `''.join(map(chr, nums))`: convert each code point and
concatenate, failing on an invalid code point. -/
def chr_join : List Nat → Option (List Char)
  | [] => some []
  | n :: rest =>
    (chr n).bind fun c =>
    (chr_join rest).bind fun cs =>
    some (c :: cs)

/-- `key_name` (nested in `decode_key_event`, closing over `csi_type`):
resolve an effective key number to a key name. -/
def key_name (csi_type : Char) (num : Nat) : Option (List Char) :=
  if num = 0 then some []
  else if num ≠ 13 then
    match alist_get functional_key_number_to_name_map
        ((alist_get csi_number_to_functional_number_map num).getD num) with
    | some ans => some ans
    | none =>
      (chr ((alist_get csi_number_to_functional_number_map num).getD num)).map (fun c => [c])
  else some (if csi_type = 'u' then "ENTER".toList else "F3".toList)

/-- `mods = second_section[0] - 1 if second_section else 0` of
`decode_key_event`. -/
def section_mods (l : List Nat) : Int :=
  match l with
  | [] => 0
  | n :: _ => (n : Int) - 1

/-- `action = second_section[1] if len(second_section) > 1 else 1` of
`decode_key_event`. -/
def section_action (l : List Nat) : Nat :=
  match l with
  | _ :: a :: _ => a
  | _ => 1

/-- `first_section[1] if len(first_section) > 1 else 0` of
`decode_key_event` (shifted-key number). -/
def section_get1 (l : List Nat) : Nat :=
  match l with
  | _ :: s :: _ => s
  | _ => 0

/-- `first_section[2] if len(first_section) > 2 else 0` of
`decode_key_event` (alternate-key number). -/
def section_get2 (l : List Nat) : Nat :=
  match l with
  | _ :: _ :: a :: _ => a
  | _ => 0

/-- The effective key number of `decode_key_event`: the letter trailer
overrides the payload's first integer. -/
def effective_keynum (csi_type : Char) (first_section : List Nat) : Nat :=
  if "ABCDHFPQRS".toList.contains csi_type then
    (alist_get letter_trailer_to_csi_number_map csi_type).getD 0
  else first_section.headD 0

/-- The integer action value the encoder assigns to an event type
(`1`/`2`/`3` for PRESS/REPEAT/RELEASE). -/
def event_action (t : EventType) : Nat :=
  match t with
  | .PRESS => 1
  | .REPEAT => 2
  | .RELEASE => 3

/-- The remainder of `decode_key_event` after the three sections have
been parsed: resolving mods, action and key number and building the
`KeyEvent`.  The Python `{1: PRESS, 2: REPEAT, 3: RELEASE}[action]` dict
lookup (whose `KeyError` is a decode failure) is the four-way match. -/
def decode_from_sections (csi_type : Char) (first_section second_section third_section : List Nat) :
    Option KeyEvent :=
  (key_name csi_type (effective_keynum csi_type first_section)).bind fun key =>
  (key_name csi_type (section_get1 first_section)).bind fun shifted_key =>
  (key_name csi_type (section_get2 first_section)).bind fun alternate_key =>
  (match section_action second_section with
    | 1 => some EventType.PRESS
    | 2 => some EventType.REPEAT
    | 3 => some EventType.RELEASE
    | _ => none).bind fun type =>
  (chr_join third_section).bind fun text =>
  some { type := type,
         mods := section_mods second_section,
         key := key, text := text,
         shifted_key := shifted_key, alternate_key := alternate_key,
         shift := decide (pyAnd (section_mods second_section) SHIFT ≠ 0),
         alt := decide (pyAnd (section_mods second_section) ALT ≠ 0),
         ctrl := decide (pyAnd (section_mods second_section) CTRL ≠ 0),
         super := decide (pyAnd (section_mods second_section) SUPER ≠ 0) }

/-- `decode_key_event` of `key_encoding.py`.  `none` models a raised
exception (`ValueError` from `int`/`chr`, `KeyError` from the action
table).  The body after the three sections are parsed is
`decode_from_sections` above. -/
def decode_key_event (csi : List Char) (csi_type : Char) : Option KeyEvent :=
  (get_sub_sections ((csi.splitOn ';').headD []) 0).bind fun first_section =>
  (if 1 < (csi.splitOn ';').length then get_sub_sections (csi.splitOn ';')[1]! 1
   else some []).bind fun second_section =>
  (if 2 < (csi.splitOn ';').length then get_sub_sections (csi.splitOn ';')[2]! 0
   else some []).bind fun third_section =>
  decode_from_sections csi_type first_section second_section third_section

/-- `csi_number_for_name` of `key_encoding.py`.  `none` models the
`TypeError` raised by `ord` on a string whose length is not 1. -/
def csi_number_for_name (key_name : List Char) : Option Nat :=
  if key_name = [] then some 0
  else match alist_get get_name_to_functional_number_map key_name with
    | some fn => some ((alist_get get_functional_to_csi_number_map fn).getD fn)
    | none => match key_name with
      | [c] => some c.toNat
      | _ => none

/-- The trailer `encode_key_event` selects before the tilde override:
`'u'` for the ENTER key, else the letter registered for the key's CSI
number, else `'u'`.  `key` is the (pre-forcing) CSI number of the key. -/
def encode_trailer0 (name : List Char) (key : Nat) : Char :=
  if name = "ENTER".toList then 'u'
  else (alist_get get_csi_number_to_letter_trailer_map key).getD 'u'

/-- The final trailer of `encode_key_event`: `~` overrides the initial
choice when the key's functional number is in `tilde_trailers`. -/
def encode_trailer_final (name : List Char) (key : Nat) : Char :=
  match alist_get get_name_to_functional_number_map name with
  | some n => if tilde_trailers.contains n then '~' else encode_trailer0 name key
  | none => encode_trailer0 name key

/-- The wire modifier mask `m` of `encode_key_event`, built by the four
sequential `m |= bit` steps from the boolean fields. -/
def encode_mod_mask (key_event : KeyEvent) : Nat :=
  let m : Nat := 0
  let m := if key_event.shift then m ||| 1 else m
  let m := if key_event.alt then m ||| 2 else m
  let m := if key_event.ctrl then m ||| 4 else m
  let m := if key_event.super then m ||| 8 else m
  m

/-- The first-section key number of `encode_key_event`: emitted unless it
is 1 and mods, shifted/alternate keys and text are all absent. -/
def encode_first_num (key_event : KeyEvent) (key shifted_key alternate_key : Nat) : List Char :=
  if key ≠ 1 ∨ key_event.mods ≠ 0 ∨ shifted_key ≠ 0 ∨ alternate_key ≠ 0 ∨ key_event.text ≠ []
  then natToStr key else []

/-- The shifted/alternate tail of the first section of
`encode_key_event`: `:<shifted>` (blank when only alternate is set) and
`:<alternate>`. -/
def encode_shifted_alternate (shifted_key alternate_key : Nat) : List Char :=
  if shifted_key ≠ 0 ∨ alternate_key ≠ 0 then
    ':' :: (if shifted_key ≠ 0 then natToStr shifted_key else [])
      ++ (if alternate_key ≠ 0 then ':' :: natToStr alternate_key else [])
  else []

/-- The second (mod/action) section of `encode_key_event`, including the
bare `;` used to offset a text-only payload. -/
def encode_mod_action (key_event : KeyEvent) : List Char :=
  if key_event.mods ≠ 0 ∨ 1 < event_action key_event.type ∨ key_event.text ≠ [] then
    if 1 < event_action key_event.type ∨ encode_mod_mask key_event ≠ 0 then
      ';' :: natToStr (encode_mod_mask key_event + 1) ++
        (if 1 < event_action key_event.type then
          ':' :: natToStr (event_action key_event.type)
        else [])
    else if key_event.text ≠ [] then [';']
    else []
  else []

/-- The third (text) section of `encode_key_event`: `;` then the
`:`-joined code points. -/
def encode_text (key_event : KeyEvent) : List Char :=
  if key_event.text ≠ [] then
    ';' :: joinColon (key_event.text.map (fun c => natToStr c.toNat))
  else []

/-- The payload `encode_key_event` builds between `ESC [` and the trailer,
given the already-forced first key number and the shifted/alternate key
numbers.  Each `ans += X` step of the source, guarded by a condition,
appears as one of the four appended section pieces above. -/
def encode_payload (key_event : KeyEvent) (key shifted_key alternate_key : Nat) : List Char :=
  ((("\x1b[".toList ++ encode_first_num key_event key shifted_key alternate_key) ++
    encode_shifted_alternate shifted_key alternate_key) ++
    encode_mod_action key_event) ++
    encode_text key_event

/-- The integers of the encoder's second (mod/action) section as the
decoder's `get_sub_sections` re-parses them (`[]` when the section is
absent, `[1]` for the bare `;`). -/
def mod_section_ints (key_event : KeyEvent) : List Nat :=
  if key_event.mods ≠ 0 ∨ 1 < event_action key_event.type ∨ key_event.text ≠ [] then
    if 1 < event_action key_event.type ∨ encode_mod_mask key_event ≠ 0 then
      (encode_mod_mask key_event + 1) ::
        (if 1 < event_action key_event.type then [event_action key_event.type] else [])
    else if key_event.text ≠ [] then [1]
    else []
  else []

/-- The integers of the encoder's third (text) section as the decoder
re-parses them: the code points of the text. -/
def text_section_ints (key_event : KeyEvent) : List Nat :=
  if key_event.text ≠ [] then key_event.text.map (fun c => c.toNat) else []

/-- `encode_key_event` of `key_encoding.py`: resolve the three key names
to numbers (`none` models the `TypeError` `ord` raises on a multi-char
non-functional name), force the first number to 1 when a letter trailer
was chosen, and assemble payload and trailer. -/
def encode_key_event (key_event : KeyEvent) : Option (List Char) :=
  (csi_number_for_name key_event.key).bind fun key =>
  (csi_number_for_name key_event.shifted_key).bind fun shifted_key =>
  (csi_number_for_name key_event.alternate_key).bind fun alternate_key =>
  some (encode_payload key_event
          (if encode_trailer0 key_event.key key ≠ 'u' then 1 else key)
          shifted_key alternate_key
        ++ [encode_trailer_final key_event.key key])

/-- Modelled from the spec: the windowing backend's `KeyEvent`
(`fast_data_types.KeyEvent`, outside the sources).  Per §4.5 it carries
numeric key/shifted/alternate fields, a mod bitset, an action constant and
the text. -/
structure WindowSystemKeyEvent where
  key : Nat
  shifted_key : Nat
  alternate_key : Nat
  mods : Nat
  action : Nat
  text : List Char
deriving DecidableEq, Repr

/-- Modelled from the spec: the three action constants and four mod-bit
constants supplied by the windowing layer (`fast_data_types`, outside the
sources; §4.5/§6 leave their values to that layer, so they are parameters
of the conversion). -/
structure GlfwConstants where
  press : Nat
  rep : Nat
  release : Nat
  mod_shift : Nat
  mod_alt : Nat
  mod_control : Nat
  mod_super : Nat

/-- The `as_num` helper nested in `KeyEvent.as_window_system_event`:
functional-name lookup, else `ord` (which raises on names whose length is
not 1, modelled as `none`); the empty name gives 0.  (The source's
`fnm.get(key) or ord(key)` uses truthiness; functional numbers are never
0, so it reads as a default.) -/
def as_num (key : List Char) : Option Nat :=
  if key = [] then some 0
  else match alist_get get_name_to_functional_number_map key with
    | some fn => some fn
    | none => match key with
      | [c] => some c.toNat
      | _ => none

/-- The action constant `KeyEvent.as_window_system_event` selects for the
event type. -/
def wse_action (self : KeyEvent) (gl : GlfwConstants) : Nat :=
  if self.type = EventType.REPEAT then gl.rep
  else if self.type = EventType.RELEASE then gl.release
  else gl.press

/-- The windowing-layer modifier mask `KeyEvent.as_window_system_event`
builds (only when `self.mods` is truthy). -/
def wse_mods (self : KeyEvent) (gl : GlfwConstants) : Nat :=
  if self.mods ≠ 0 then
    let m : Nat := 0
    let m := if self.shift then m ||| gl.mod_shift else m
    let m := if self.alt then m ||| gl.mod_alt else m
    let m := if self.ctrl then m ||| gl.mod_control else m
    let m := if self.super then m ||| gl.mod_super else m
    m
  else 0

/-- `KeyEvent.as_window_system_event` of `key_encoding.py`. -/
def KeyEvent.as_window_system_event (self : KeyEvent) (gl : GlfwConstants) :
    Option WindowSystemKeyEvent :=
  (as_num self.key).bind fun k =>
  (as_num self.shifted_key).bind fun sk =>
  (as_num self.alternate_key).bind fun ak =>
  some ⟨k, sk, ak, wse_mods self gl, wse_action self gl, self.text⟩

/-- `decode_key_event_as_window_system_key` of `key_encoding.py`.  The
OUTER `Option` models exceptions escaping the function: `text[-1]` on the
empty input and the conversion after the `try` block run outside the
exception handler.  The INNER `Option` is the function's own return value
(`None` = the absent result for a caught decode failure). -/
def decode_key_event_as_window_system_key (gl : GlfwConstants) (text : List Char) :
    Option (Option WindowSystemKeyEvent) :=
  match text.getLast? with
  | none => none
  | some trailer =>
    match decode_key_event ((text.drop 2).dropLast) trailer with
    | none => some none
    | some k =>
      match k.as_window_system_event gl with
      | none => none
      | some w => some (some w)

/-- The values stored in `config_mod_map`, together with the unknown-token
sentinel `SUPER << 8`: every modifier token contributes one of these. -/
def mod_vals : List Int := [1, 2, 4, 8, 2048]

/-- The modifier values reachable by OR-ing members of `mod_vals` without
the sentinel: `0..15`. -/
def acc_lo : List Int := [0, 1, 2, 3, 4, 5, 6, 7, 8, 9, 10, 11, 12, 13, 14, 15]

/-- The modifier values reachable by OR-ing members of `mod_vals` once the
sentinel has been OR-ed in: `2048..2063`. -/
def acc_hi : List Int :=
  [2048, 2049, 2050, 2051, 2052, 2053, 2054, 2055,
   2056, 2057, 2058, 2059, 2060, 2061, 2062, 2063]

/-- The trailer `encode_key_event` selects for a given key name (the
trailer-selection steps of the encoder, factored out for specification
purposes). -/
def encode_trailer (key : List Char) : Option Char :=
  (csi_number_for_name key).bind fun k => some (encode_trailer_final key k)

/-- Decode a full escape sequence `ESC [ payload trailer` by stripping the
two-byte CSI prefix and the trailer, exactly as the window-system bridge
does (`text[2:-1]` and `text[-1]`), then running the decoder. -/
def decode_sequence (s : List Char) : Option KeyEvent :=
  match s.getLast? with
  | none => none
  | some trailer => decode_key_event ((s.drop 2).dropLast) trailer

/-! ### Shape lemmas for the decoder and encoder -/

/-- Inversion for `decode_from_sections`: a successful decode determines
every field of the event from the section integers. -/
theorem dfs_inversion (t : Char) (f1 f2 f3 : List Nat) (e : KeyEvent)
    (h : decode_from_sections t f1 f2 f3 = some e) :
    key_name t (effective_keynum t f1) = some e.key ∧
    key_name t (section_get1 f1) = some e.shifted_key ∧
    key_name t (section_get2 f1) = some e.alternate_key ∧
    chr_join f3 = some e.text ∧
    e.mods = section_mods f2 ∧
    section_action f2 = event_action e.type ∧
    e.shift = decide (pyAnd e.mods SHIFT ≠ 0) ∧
    e.alt = decide (pyAnd e.mods ALT ≠ 0) ∧
    e.ctrl = decide (pyAnd e.mods CTRL ≠ 0) ∧
    e.super = decide (pyAnd e.mods SUPER ≠ 0) := by
  unfold decode_from_sections at h
  rw [Option.bind_eq_some] at h
  obtain ⟨k, hk, h⟩ := h
  rw [Option.bind_eq_some] at h
  obtain ⟨sk, hs, h⟩ := h
  rw [Option.bind_eq_some] at h
  obtain ⟨ak, ha, h⟩ := h
  rw [Option.bind_eq_some] at h
  obtain ⟨ty, hty, h⟩ := h
  rw [Option.bind_eq_some] at h
  obtain ⟨tx, htx, h⟩ := h
  rw [Option.some_inj] at h
  subst h
  refine ⟨hk, hs, ha, htx, rfl, ?_, rfl, rfl, rfl, rfl⟩
  show section_action f2 = event_action ty
  generalize hsa : section_action f2 = a at hty
  rcases a with _ | _ | _ | _ | a4 <;> simp at hty <;> simp [event_action, ← hty]

/-- Forward evaluation of `decode_from_sections` from resolved names,
action and text. -/
theorem dfs_build (t : Char) (f1 f2 f3 : List Nat) (k sk ak : List Char) (ty : EventType)
    (tx : List Char)
    (hk : key_name t (effective_keynum t f1) = some k)
    (hs : key_name t (section_get1 f1) = some sk)
    (ha : key_name t (section_get2 f1) = some ak)
    (hty : section_action f2 = event_action ty)
    (htx : chr_join f3 = some tx) :
    decode_from_sections t f1 f2 f3 =
      some { type := ty, mods := section_mods f2, key := k, text := tx, shifted_key := sk,
             alternate_key := ak,
             shift := decide (pyAnd (section_mods f2) SHIFT ≠ 0),
             alt := decide (pyAnd (section_mods f2) ALT ≠ 0),
             ctrl := decide (pyAnd (section_mods f2) CTRL ≠ 0),
             super := decide (pyAnd (section_mods f2) SUPER ≠ 0) } := by
  unfold decode_from_sections
  rw [hk, Option.some_bind', hs, Option.some_bind', ha, Option.some_bind', hty]
  cases ty <;> simp only [event_action, Option.some_bind'] <;> rw [htx, Option.some_bind']

/-- Inversion for `decode_key_event`: a successful decode yields parsed
sections feeding `decode_from_sections`. -/
theorem decode_inversion (csi : List Char) (t : Char) (e : KeyEvent)
    (h : decode_key_event csi t = some e) :
    ∃ f1 f2 f3 : List Nat,
      get_sub_sections ((csi.splitOn ';').headD []) 0 = some f1 ∧
      (if 1 < (csi.splitOn ';').length then get_sub_sections (csi.splitOn ';')[1]! 1
       else some []) = some f2 ∧
      (if 2 < (csi.splitOn ';').length then get_sub_sections (csi.splitOn ';')[2]! 0
       else some []) = some f3 ∧
      decode_from_sections t f1 f2 f3 = some e := by
  unfold decode_key_event at h
  rw [Option.bind_eq_some] at h
  obtain ⟨f1, h1, h⟩ := h
  rw [Option.bind_eq_some] at h
  obtain ⟨f2, h2, h⟩ := h
  rw [Option.bind_eq_some] at h
  obtain ⟨f3, h3, h⟩ := h
  exact ⟨f1, f2, f3, h1, h2, h3, h⟩

/-- Inversion for `encode_key_event`: a successful encode resolves the
three names and assembles `encode_payload` plus the final trailer. -/
theorem encode_inversion (e : KeyEvent) (s : List Char)
    (h : encode_key_event e = some s) :
    ∃ k sk ak : Nat,
      csi_number_for_name e.key = some k ∧
      csi_number_for_name e.shifted_key = some sk ∧
      csi_number_for_name e.alternate_key = some ak ∧
      s = encode_payload e (if encode_trailer0 e.key k ≠ 'u' then 1 else k) sk ak
            ++ [encode_trailer_final e.key k] := by
  unfold encode_key_event at h
  rw [Option.bind_eq_some] at h
  obtain ⟨k, hk, h⟩ := h
  rw [Option.bind_eq_some] at h
  obtain ⟨sk, hsk, h⟩ := h
  rw [Option.bind_eq_some] at h
  obtain ⟨ak, hak, h⟩ := h
  rw [Option.some_inj] at h
  exact ⟨k, sk, ak, hk, hsk, hak, h.symm⟩

/-- Forward evaluation of `encode_key_event` from resolved numbers. -/
theorem encode_build (e : KeyEvent) (k sk ak : Nat)
    (hk : csi_number_for_name e.key = some k)
    (hsk : csi_number_for_name e.shifted_key = some sk)
    (hak : csi_number_for_name e.alternate_key = some ak) :
    encode_key_event e =
      some (encode_payload e (if encode_trailer0 e.key k ≠ 'u' then 1 else k) sk ak
            ++ [encode_trailer_final e.key k]) := by
  unfold encode_key_event
  rw [hk, Option.some_bind', hsk, Option.some_bind', hak, Option.some_bind']

/-! ### Decimal strings, split/join, and section parsing -/

theorem digitChar_isDigit (n : Nat) (h : n < 10) : (digitChar n).isDigit = true := by
  interval_cases n <;> decide

theorem digitChar_toNat (n : Nat) (h : n < 10) : (digitChar n).toNat = 48 + n := by
  interval_cases n <;> decide

theorem natToStrAux_digits (fuel n : Nat) : ∀ c ∈ natToStrAux fuel n, c.isDigit = true := by
  induction fuel generalizing n with
  | zero => intro c hc; simp [natToStrAux] at hc
  | succ fuel ih =>
    intro c hc
    unfold natToStrAux at hc
    by_cases h : n < 10
    · rw [if_pos h] at hc
      simp at hc
      subst hc
      exact digitChar_isDigit n h
    · rw [if_neg h] at hc
      rcases List.mem_append.mp hc with h1 | h1
      · exact ih (n / 10) c h1
      · simp at h1
        subst h1
        exact digitChar_isDigit (n % 10) (Nat.mod_lt n (by omega))

theorem natToStrAux_ne_nil (fuel n : Nat) (h : 0 < fuel) : natToStrAux fuel n ≠ [] := by
  cases fuel with
  | zero => omega
  | succ fuel =>
    unfold natToStrAux
    by_cases h10 : n < 10
    · rw [if_pos h10]; simp
    · rw [if_neg h10]; simp

theorem natToStrAux_val (fuel n : Nat) (h : n < 10 ^ fuel) :
    (natToStrAux fuel n).foldl (fun a c => 10 * a + (c.toNat - 48)) 0 = n := by
  induction fuel generalizing n with
  | zero => simp at h; simp [natToStrAux, h]
  | succ fuel ih =>
    unfold natToStrAux
    by_cases h10 : n < 10
    · rw [if_pos h10]
      simp [digitChar_toNat n h10]
    · rw [if_neg h10]
      rw [List.foldl_append]
      have hdiv : n / 10 < 10 ^ fuel := by
        rw [Nat.pow_succ] at h
        exact Nat.div_lt_of_lt_mul (Nat.mul_comm (10 ^ fuel) 10 ▸ h)
      rw [ih (n / 10) hdiv]
      simp [digitChar_toNat (n % 10) (Nat.mod_lt n (by omega))]
      omega

theorem natToStr_digits (n : Nat) : ∀ c ∈ natToStr n, c.isDigit = true :=
  natToStrAux_digits (n + 1) n

theorem natToStr_ne_nil (n : Nat) : natToStr n ≠ [] :=
  natToStrAux_ne_nil (n + 1) n (by omega)

theorem natToStr_not_mem (n : Nat) (c : Char) (hc : c.isDigit = false) : c ∉ natToStr n := by
  intro hmem
  have := natToStr_digits n c hmem
  rw [hc] at this
  exact Bool.false_ne_true this

theorem parseNat_natToStr (n : Nat) : parseNat (natToStr n) = some n := by
  unfold parseNat
  rw [if_pos ⟨natToStr_ne_nil n, List.all_eq_true.mpr (natToStr_digits n)⟩]
  have hn : n < 10 ^ (n + 1) :=
    lt_of_lt_of_le (Nat.lt_pow_self (by omega) n) (Nat.pow_le_pow_right (by omega) (by omega))
  rw [Option.some_inj]
  exact natToStrAux_val (n + 1) n hn

theorem splitOn_of_not_mem {sep : Char} {l : List Char} (h : sep ∉ l) :
    l.splitOn sep = [l] := by
  unfold List.splitOn
  exact List.splitOnP_eq_single _ _ (by
    intro x hx
    simp only [beq_iff_eq]
    intro hxe
    exact h (hxe ▸ hx))

theorem splitOn_append_sep {sep : Char} {l : List Char} (h : sep ∉ l) (r : List Char) :
    (l ++ sep :: r).splitOn sep = l :: r.splitOn sep := by
  unfold List.splitOn
  exact List.splitOnP_first _ _ (by
    intro x hx
    simp only [beq_iff_eq]
    intro hxe
    exact h (hxe ▸ hx)) sep (by simp) r

theorem semi_not_mem_natToStr (n : Nat) : ';' ∉ natToStr n :=
  natToStr_not_mem n ';' (by decide)

theorem colon_not_mem_natToStr (n : Nat) : ':' ∉ natToStr n :=
  natToStr_not_mem n ':' (by decide)

theorem get_sub_sections_nil (m : Nat) : get_sub_sections [] m = some [m] := by
  unfold get_sub_sections
  rw [List.splitOn_nil]
  unfold parse_sub_sections parse_sub_sections
  simp

theorem get_sub_sections_single (n m : Nat) :
    get_sub_sections (natToStr n) m = some [n] := by
  unfold get_sub_sections
  rw [splitOn_of_not_mem (colon_not_mem_natToStr n)]
  unfold parse_sub_sections parse_sub_sections
  simp [natToStr_ne_nil n, parseNat_natToStr n]

theorem get_sub_sections_cons (n m : Nat) (r : List Char) (l : List Nat)
    (hr : get_sub_sections r m = some l) :
    get_sub_sections (natToStr n ++ ':' :: r) m = some (n :: l) := by
  unfold get_sub_sections at hr ⊢
  rw [splitOn_append_sep (colon_not_mem_natToStr n)]
  unfold parse_sub_sections
  simp [natToStr_ne_nil n, parseNat_natToStr n, hr]

theorem get_sub_sections_blank_cons (m : Nat) (r : List Char) (l : List Nat)
    (hr : get_sub_sections r m = some l) :
    get_sub_sections (':' :: r) m = some (m :: l) := by
  unfold get_sub_sections at hr ⊢
  have hsp : (':' :: r).splitOn ':' = [] :: r.splitOn ':' := by
    have := @splitOn_append_sep ':' [] (by simp) r
    simpa using this
  rw [hsp]
  unfold parse_sub_sections
  simp [hr]

theorem chr_toNat (c : Char) : chr c.toNat = some c := by
  unfold chr
  rw [if_pos (show Nat.isValidChar c.toNat from c.valid)]
  simp

theorem chr_join_map_toNat (cs : List Char) :
    chr_join (cs.map (fun c => c.toNat)) = some cs := by
  induction cs with
  | nil => rfl
  | cons c cs ih =>
    show chr_join (c.toNat :: cs.map (fun c => c.toNat)) = some (c :: cs)
    unfold chr_join
    rw [chr_toNat, Option.some_bind', ih, Option.some_bind']

theorem joinColon_sections (o : Nat) (l : List Nat) (m : Nat) :
    get_sub_sections (joinColon ((o :: l).map natToStr)) m = some (o :: l) := by
  induction l generalizing o with
  | nil => exact get_sub_sections_single o m
  | cons p r ih =>
    show get_sub_sections (joinColon (natToStr o :: natToStr p :: r.map natToStr)) m = _
    unfold joinColon
    exact get_sub_sections_cons o m _ _ (ih p)

/-! ### Claim theorems -/

/-- C2 counterexample: encoding `KeyEvent(key="F1")` yields `"\x1b[P"`,
not the claimed `"\x1b[1P"`: the forced first integer 1 is omitted because
the first section is suppressed when the key number is 1 and no other
payload data is present. -/
theorem C2_counterexample :
    encode_key_event { key := "F1".toList } = some "\x1b[P".toList ∧
    encode_key_event { key := "F1".toList } ≠ some "\x1b[1P".toList := by
  constructor <;> decide

/-- C2 (amended): encoding `KeyEvent(key="F1")` (PRESS, no mods, no text,
no shifted/alternate key) selects the letter trailer `P`, forces the first
integer to 1 and then omits it (first section suppressed when the key
number is 1 with no other payload data), producing exactly `"\x1b[P"`. -/
theorem C2_theorem : encode_key_event { key := "F1".toList } = some "\x1b[P".toList := by
  decide

/-- C3 counterexample: decoding payload `"97;;:65"` with trailer `u` does
NOT give text `"A"`: the empty piece before `":65"` defaults to 0, so the
text is `"\x00A"`. -/
theorem C3_counterexample :
    (decode_key_event "97;;:65".toList 'u').map KeyEvent.text ≠ some "A".toList := by
  decide

/-- C3 (amended): decoding `"97;;:65"` with trailer `u` yields
`KeyEvent(key="a", shifted_key="", alternate_key="", mods=0, type=PRESS,
text="\x00A")`: the third section's integers are Unicode scalar values
concatenated into `text`, and its leading empty piece defaults to 0
(U+0000), giving `"\x00A"` rather than `"A"`. -/
theorem C3_theorem :
    decode_key_event "97;;:65".toList 'u' =
      some { type := EventType.PRESS, mods := 0, key := "a".toList, text := "\x00A".toList,
             shifted_key := [], alternate_key := [], shift := false, alt := false,
             ctrl := false, super := false } := by
  decide

/-- C4: whenever the effective key number is 13, the resolved key name is
`"ENTER"` exactly when the trailer is `u` and `"F3"` for every other
trailer; in particular `decode("13","u").key = "ENTER"` and
`decode("13","~").key = "F3"`. -/
theorem C4_theorem :
    (∀ t : Char, key_name t 13 = some (if t = 'u' then "ENTER".toList else "F3".toList)) ∧
    (decode_key_event "13".toList 'u').map KeyEvent.key = some "ENTER".toList ∧
    (decode_key_event "13".toList '~').map KeyEvent.key = some "F3".toList := by
  refine ⟨fun t => ?_, by decide, by decide⟩
  by_cases h : t = 'u' <;> simp [key_name, h]

/-- C5: every `KeyEvent` whose key's functional number is in
`tilde_trailers` encodes (whenever the encoder succeeds) with final
trailer `~`, regardless of mods, type, text, shifted or alternate key;
in particular `encode(KeyEvent(key="INSERT", mods=CTRL, ctrl=true))`
is `"\x1b[2;5~"`. -/
theorem C5_theorem :
    (∀ (e : KeyEvent) (fn : Nat) (s : List Char),
      alist_get get_name_to_functional_number_map e.key = some fn →
      tilde_trailers.contains fn = true →
      encode_key_event e = some s →
      s.getLast? = some '~') ∧
    encode_key_event { key := "INSERT".toList, mods := CTRL, ctrl := true } =
      some "\x1b[2;5~".toList := by
  refine ⟨fun e fn s hfn hmem henc => ?_, by decide⟩
  obtain ⟨k, sk, ak, hk, hsk, hak, hs_eq⟩ := encode_inversion e s henc
  have htr : encode_trailer_final e.key k = '~' := by
    unfold encode_trailer_final
    rw [hfn]
    show (if tilde_trailers.contains fn = true then '~' else encode_trailer0 e.key k) = '~'
    rw [if_pos hmem]
  rw [hs_eq, htr]
  simp

/-- C5 witness at the concrete INSERT event. -/
theorem C5_witness :
    alist_get get_name_to_functional_number_map ("INSERT".toList) = some 57348 ∧
    tilde_trailers.contains 57348 = true ∧
    encode_key_event { key := "INSERT".toList, mods := CTRL, ctrl := true } =
      some "\x1b[2;5~".toList ∧
    ("\x1b[2;5~".toList).getLast? = some '~' :=
  ⟨by decide, by decide, by decide,
    C5_theorem.1 { key := "INSERT".toList, mods := CTRL, ctrl := true } 57348
      "\x1b[2;5~".toList (by decide) (by decide) (by decide)⟩

/-- C10: the decoder applies no masking to the wire modifier value: for
every payload whose second section's first integer is `n ≥ 1`, a
successful decode returns an event with `mods = n - 1` exactly; in
particular `decode("1;2049","u").mods = 2048`, the sentinel bit
`SUPER << 8`, set directly from wire input. -/
theorem C10_theorem :
    (∀ (csi : List Char) (t : Char) (p0 p1 : List Char) (rest : List (List Char))
        (n : Nat) (ns : List Nat) (e : KeyEvent),
      csi.splitOn ';' = p0 :: p1 :: rest →
      get_sub_sections p1 1 = some (n :: ns) →
      1 ≤ n →
      decode_key_event csi t = some e →
      e.mods = (n : Int) - 1) ∧
    (decode_key_event "1;2049".toList 'u').map KeyEvent.mods = some 2048 := by
  refine ⟨fun csi t p0 p1 rest n ns e hsplit hsec hn hdec => ?_, by decide⟩
  obtain ⟨f1, f2, f3, h1, h2, h3, hd⟩ := decode_inversion csi t e hdec
  rw [hsplit] at h2
  have hlen : 1 < (p0 :: p1 :: rest).length := by simp
  rw [if_pos hlen] at h2
  simp only [List.getElem!_cons_succ, List.getElem!_cons_zero] at h2
  rw [hsec, Option.some_inj] at h2
  subst h2
  have hmods := (dfs_inversion t f1 (n :: ns) f3 e hd).2.2.2.2.1
  rw [hmods]
  rfl

/-- C10 witness at the concrete payload `"1;17"`-style input `"1;2049"`. -/
theorem C10_witness :
    ("1;2049".toList.splitOn ';' = ["1".toList, "2049".toList]) ∧
    get_sub_sections "2049".toList 1 = some [2049] ∧
    (1 : Nat) ≤ 2049 ∧
    (∃ e, decode_key_event "1;2049".toList 'u' = some e ∧ e.mods = (2049 : Int) - 1) := by
  refine ⟨by decide, by decide, by decide, ?_⟩
  cases hdec : decode_key_event "1;2049".toList 'u' with
  | none => exact absurd hdec (by decide)
  | some e =>
    exact ⟨e, rfl, C10_theorem.1 "1;2049".toList 'u' "1".toList "2049".toList [] 2049 [] e
      (by decide) (by decide) (by decide) hdec⟩

/-- Resolution of an unaliased, non-functional key token: if the
functional alias table misses the (upper-cased) token, the token is not a
functional name, and the character alias table misses it too, the token is
returned as-is. -/
theorem resolve_key_of_unaliased (fal cal : List Char → Option (List Char)) (kn : List Char)
    (hf : fal (upper kn) = none)
    (hnf : alist_get get_name_to_functional_number_map (upper kn) = none)
    (hc : cal (upper kn) = none) :
    resolve_key fal cal kn = kn := by
  unfold resolve_key apply_alias
  rw [hf]
  simp only [Option.getD_none]
  rw [hnf]
  simp only [Option.isSome_none, Bool.false_eq_true, if_false]
  rw [hc]
  simp

/-- C6: shift-alias matching.  For every PRESS event with `shift` set,
`shifted_key = "#"`, `key = "3"` and `mods = SHIFT`, and alias tables that
leave `#` and `3` unaliased, `matches("#")` strips the SHIFT bit and
compares the shifted key (true), while `matches("shift+3")` is false. -/
theorem C6_theorem (fal cal : List Char → Option (List Char)) (e : KeyEvent)
    (hty : e.type = EventType.PRESS) (hshift : e.shift = true)
    (hsk : e.shifted_key = "#".toList) (hkey : e.key = "3".toList) (hmods : e.mods = SHIFT)
    (hf1 : fal "#".toList = none) (hc1 : cal "#".toList = none)
    (hf2 : fal "3".toList = none) (hc2 : cal "3".toList = none) :
    e.matches_str fal cal "#".toList 3 = true ∧
    e.matches_str fal cal "shift+3".toList 3 = false := by
  have hu1 : upper "#".toList = "#".toList := by decide
  have hu2 : upper "3".toList = "3".toList := by decide
  have hp1 : parse_shortcut fal cal "#".toList = ⟨0, "#".toList⟩ := by
    unfold parse_shortcut
    rw [show ((normalize_plus "#".toList).splitOn '+') = ["#".toList] from by decide]
    rw [show (["#".toList].getLastD []) = "#".toList from by decide]
    rw [show shortcut_mods ["#".toList] = 0 from by decide]
    rw [resolve_key_of_unaliased fal cal "#".toList (hu1 ▸ hf1)
      (by decide) (hu1 ▸ hc1)]
  have hp2 : parse_shortcut fal cal "shift+3".toList = ⟨1, "3".toList⟩ := by
    unfold parse_shortcut
    rw [show ((normalize_plus "shift+3".toList).splitOn '+') =
      ["shift".toList, "3".toList] from by decide]
    rw [show (["shift".toList, "3".toList].getLastD []) = "3".toList from by decide]
    rw [show shortcut_mods ["shift".toList, "3".toList] = 1 from by decide]
    rw [resolve_key_of_unaliased fal cal "3".toList (hu2 ▸ hf2)
      (by decide) (hu2 ▸ hc2)]
  constructor
  · unfold KeyEvent.matches_str
    rw [hp1]
    unfold KeyEvent.matches
    rw [hty, hshift, hsk, hkey, hmods]
    decide
  · unfold KeyEvent.matches_str
    rw [hp2]
    unfold KeyEvent.matches
    rw [hty, hshift, hsk, hkey, hmods]
    decide

/-- C6 witness: concrete empty alias maps and a concrete event. -/
theorem C6_witness :
    ({ type := EventType.PRESS, mods := SHIFT, key := "3".toList,
       shifted_key := "#".toList, shift := true : KeyEvent }).matches_str
        (fun _ => none) (fun _ => none) "#".toList 3 = true ∧
    ({ type := EventType.PRESS, mods := SHIFT, key := "3".toList,
       shifted_key := "#".toList, shift := true : KeyEvent }).matches_str
        (fun _ => none) (fun _ => none) "shift+3".toList 3 = false :=
  C6_theorem (fun _ => none) (fun _ => none)
    { type := EventType.PRESS, mods := SHIFT, key := "3".toList,
      shifted_key := "#".toList, shift := true }
    rfl rfl rfl rfl rfl rfl rfl rfl rfl

/-- C7: trailing-plus normalization.  A spec ending in `+` parses exactly
as the spec with its final `+` replaced by the literal token `plus`, for
any alias maps; in particular `"ctrl++"` parses like `"ctrl+plus"` and
carries `mods = CTRL`. -/
theorem C7_theorem (fal cal : List Char → Option (List Char)) (s : List Char)
    (h : s.getLast? = some '+') :
    parse_shortcut fal cal s = parse_shortcut fal cal (s.dropLast ++ "plus".toList) ∧
    (parse_shortcut fal cal "ctrl++".toList).mods = CTRL := by
  constructor
  · have h1 : normalize_plus s = s.dropLast ++ "plus".toList := by
      unfold normalize_plus
      rw [if_pos h]
    have h2 : normalize_plus (s.dropLast ++ "plus".toList) = s.dropLast ++ "plus".toList := by
      unfold normalize_plus
      rw [if_neg]
      rw [List.getLast?_append]
      rw [show ("plus".toList.getLast?) = some 's' from by decide]
      simp
    unfold parse_shortcut
    rw [h1, h2]
  · rfl

/-- C7 witness at `s = "ctrl++"`. -/
theorem C7_witness :
    ("ctrl++".toList.getLast? = some '+') ∧
    parse_shortcut (fun _ => none) (fun _ => none) "ctrl++".toList =
      parse_shortcut (fun _ => none) (fun _ => none) ("ctrl++".toList.dropLast ++ "plus".toList) ∧
    (parse_shortcut (fun _ => none) (fun _ => none) "ctrl++".toList).mods = CTRL :=
  ⟨by decide,
    (C7_theorem (fun _ => none) (fun _ => none) "ctrl++".toList (by decide)).1,
    (C7_theorem (fun _ => none) (fun _ => none) "ctrl++".toList (by decide)).2⟩

/-! ### The sentinel modifier bit (C9) -/

theorem alist_get_mem {α β : Type} [DecidableEq α] (l : List (α × β)) (k : α) (v : β)
    (h : alist_get l k = some v) : (k, v) ∈ l := by
  induction l with
  | nil => simp [alist_get] at h
  | cons p rest ih =>
    obtain ⟨pk, pv⟩ := p
    unfold alist_get at h
    by_cases hk : k = pk
    · rw [if_pos hk] at h
      rw [Option.some_inj] at h
      subst h
      subst hk
      exact List.mem_cons_self _ _
    · rw [if_neg hk] at h
      exact List.mem_cons_of_mem _ (ih h)

theorem token_val_mem (x : List Char) :
    ((alist_get config_mod_map (upper x)).getD super_sentinel) ∈ mod_vals := by
  cases h : alist_get config_mod_map (upper x) with
  | none => decide
  | some v =>
    have hmem := alist_get_mem _ _ _ h
    have hall : ∀ p ∈ config_mod_map, p.2 ∈ mod_vals := by decide
    simpa using hall _ hmem

theorem pyOr_step_mem : ∀ a ∈ acc_lo ++ acc_hi, ∀ v ∈ mod_vals, pyOr a v ∈ acc_lo ++ acc_hi := by
  decide

theorem pyOr_step_hi : ∀ a ∈ acc_hi, ∀ v ∈ mod_vals, pyOr a v ∈ acc_hi := by
  decide

theorem pyOr_to_hi : ∀ a ∈ acc_lo ++ acc_hi, pyOr a super_sentinel ∈ acc_hi := by
  decide

theorem foldl_pyOr_hi (l : List Int) (acc : Int) (hacc : acc ∈ acc_hi)
    (hl : ∀ v ∈ l, v ∈ mod_vals) : l.foldl pyOr acc ∈ acc_hi := by
  induction l generalizing acc with
  | nil => exact hacc
  | cons v r ih =>
    exact ih (pyOr acc v) (pyOr_step_hi acc hacc v (hl v (by simp)))
      (fun w hw => hl w (by simp [hw]))

theorem foldl_pyOr_reach_hi (l : List Int) (acc : Int) (hacc : acc ∈ acc_lo ++ acc_hi)
    (hl : ∀ v ∈ l, v ∈ mod_vals) (hs : super_sentinel ∈ l) : l.foldl pyOr acc ∈ acc_hi := by
  induction l generalizing acc with
  | nil => simp at hs
  | cons v r ih =>
    rcases List.mem_cons.mp hs with hv | hv
    · subst hv
      exact foldl_pyOr_hi r (pyOr acc super_sentinel) (pyOr_to_hi acc hacc)
        (fun w hw => hl w (by simp [hw]))
    · exact ih (pyOr acc v)
        (pyOr_step_mem acc hacc v (hl v (by simp)))
        (fun w hw => hl w (by simp [hw])) hv

theorem shortcut_mods_hi (parts : List (List Char)) (t : List Char)
    (hmem : t ∈ parts.dropLast) (hunknown : alist_get config_mod_map (upper t) = none) :
    shortcut_mods parts ∈ acc_hi := by
  unfold shortcut_mods
  have hlen : 1 < parts.length := by
    have h0 : 0 < parts.dropLast.length := List.length_pos.mpr (List.ne_nil_of_mem hmem)
    rw [List.length_dropLast] at h0
    omega
  rw [if_pos hlen]
  apply foldl_pyOr_reach_hi
  · decide
  · intro v hv
    obtain ⟨x, _, hx⟩ := List.mem_map.mp hv
    exact hx ▸ token_val_mem x
  · refine List.mem_map.mpr ⟨t, hmem, ?_⟩
    rw [hunknown]
    rfl

theorem acc_hi_pyAnd : ∀ x ∈ acc_hi, pyAnd x super_sentinel = super_sentinel := by decide

theorem acc_hi_ge : ∀ x ∈ acc_hi, 2048 ≤ x := by decide

theorem live_q_bound (M : Int) (h0 : 0 ≤ M) (h16 : M < 16) :
    0 ≤ pyAnd M (pyNot SHIFT) ∧ pyAnd M (pyNot SHIFT) < 16 := by
  interval_cases M <;> decide

/-- A parsed shortcut whose mods carry the sentinel bit can never match a
live event (one whose mods carry only the four documented modifier bits,
i.e. `0 ≤ mods < 16`). -/
theorem matches_false_of_sentinel (e : KeyEvent) (sp : ParsedShortcut) (types : Nat)
    (hsp : sp.mods ∈ acc_hi) (h0 : 0 ≤ e.mods) (h16 : e.mods < 16) :
    e.matches sp types = false := by
  unfold KeyEvent.matches
  by_cases h1 : e.type.toNat &&& types = 0
  · rw [if_pos h1]
  · rw [if_neg h1]
    have hge := acc_hi_ge sp.mods hsp
    have hq : (if !e.shifted_key.isEmpty && e.shift then pyAnd e.mods (pyNot SHIFT)
               else e.mods) ≠ sp.mods := by
      by_cases hsh : (!e.shifted_key.isEmpty && e.shift) = true
      · rw [if_pos hsh]
        have := live_q_bound e.mods h0 h16
        omega
      · rw [if_neg hsh]
        omega
    rw [if_pos hq]

/-- C9: unknown-modifier specs never match.  If some modifier token of
the (normalized) spec is missing from `config_mod_map`, the parsed mods
carry the sentinel bit `SUPER << 8` (2048), and no live event — one whose
mods carry only the four documented modifier bits, hence never the
sentinel bit — can match the spec, whatever the alias maps. -/
theorem C9_theorem (fal cal : List Char → Option (List Char)) (spec : List Char)
    (types : Nat) (e : KeyEvent) (t : List Char)
    (hmem : t ∈ ((normalize_plus spec).splitOn '+').dropLast)
    (hunknown : alist_get config_mod_map (upper t) = none) :
    pyAnd (parse_shortcut fal cal spec).mods super_sentinel = super_sentinel ∧
    (0 ≤ e.mods → e.mods < 16 → e.matches (parse_shortcut fal cal spec) types = false) := by
  have hhi : (parse_shortcut fal cal spec).mods ∈ acc_hi := by
    show shortcut_mods ((normalize_plus spec).splitOn '+') ∈ acc_hi
    exact shortcut_mods_hi _ t hmem hunknown
  exact ⟨acc_hi_pyAnd _ hhi, fun h0 h16 => matches_false_of_sentinel e _ types hhi h0 h16⟩

/-- C9 witness: the spec `"hyper+x"` has the unknown modifier `hyper`;
with empty alias maps its parsed mods carry the sentinel bit, and a
concrete live event does not match it. -/
theorem C9_witness :
    ("hyper".toList ∈ ((normalize_plus "hyper+x".toList).splitOn '+').dropLast) ∧
    alist_get config_mod_map (upper "hyper".toList) = none ∧
    pyAnd (parse_shortcut (fun _ => none) (fun _ => none) "hyper+x".toList).mods super_sentinel =
      super_sentinel ∧
    ({ key := "x".toList : KeyEvent }).matches
      (parse_shortcut (fun _ => none) (fun _ => none) "hyper+x".toList) 3 = false :=
  ⟨by decide, by decide,
    (C9_theorem (fun _ => none) (fun _ => none) "hyper+x".toList 3
      { key := "x".toList } "hyper".toList (by decide) (by decide)).1,
    (C9_theorem (fun _ => none) (fun _ => none) "hyper+x".toList 3
      { key := "x".toList } "hyper".toList (by decide) (by decide)).2
      (by decide) (by decide)⟩

/-! ### The window-system bridge (C8) -/

set_option maxRecDepth 8192 in
/-- Every key name the decoder can produce is convertible by `as_num`
(it is empty, a functional name, or a single character). -/
theorem as_num_of_key_name (t : Char) (n : Nat) (s : List Char)
    (h : key_name t n = some s) : ∃ v, as_num s = some v := by
  unfold key_name at h
  by_cases h0 : n = 0
  · rw [if_pos h0, Option.some_inj] at h
    subst h
    exact ⟨0, rfl⟩
  · rw [if_neg h0] at h
    by_cases h13 : n ≠ 13
    · rw [if_pos h13] at h
      cases hl : alist_get functional_key_number_to_name_map
          ((alist_get csi_number_to_functional_number_map n).getD n) with
      | some ans =>
        rw [hl, Option.some_inj] at h
        subst h
        have hall : ∀ p ∈ functional_key_number_to_name_map, (as_num p.2).isSome = true := by
          decide
        exact Option.isSome_iff_exists.mp (hall _ (alist_get_mem _ _ _ hl))
      | none =>
        rw [hl] at h
        cases hc : chr ((alist_get csi_number_to_functional_number_map n).getD n) with
        | none => rw [hc] at h; simp at h
        | some c =>
          rw [hc] at h
          simp only [Option.map_some'] at h
          rw [Option.some_inj] at h
          subst h
          unfold as_num
          rw [if_neg (by simp)]
          cases alist_get get_name_to_functional_number_map [c] with
          | some fn => exact ⟨fn, rfl⟩
          | none => exact ⟨c.toNat, rfl⟩
    · rw [if_neg h13, Option.some_inj] at h
      subst h
      by_cases hu : t = 'u'
      · rw [if_pos hu]
        exact ⟨57345, by decide⟩
      · rw [if_neg hu]
        exact ⟨57366, by decide⟩

/-- A decoded event converts to a window-system event for any constants:
its three name fields all come from `key_name`. -/
theorem decoded_event_converts (csi : List Char) (t : Char) (e : KeyEvent)
    (gl : GlfwConstants) (h : decode_key_event csi t = some e) :
    ∃ w, e.as_window_system_event gl = some w := by
  obtain ⟨f1, f2, f3, _, _, _, hd⟩ := decode_inversion csi t e h
  obtain ⟨hk, hs, ha, -⟩ := dfs_inversion t f1 f2 f3 e hd
  obtain ⟨vk, hvk⟩ := as_num_of_key_name _ _ _ hk
  obtain ⟨vs, hvs⟩ := as_num_of_key_name _ _ _ hs
  obtain ⟨va, hva⟩ := as_num_of_key_name _ _ _ ha
  refine ⟨⟨vk, vs, va, wse_mods e gl, wse_action e gl, e.text⟩, ?_⟩
  unfold KeyEvent.as_window_system_event
  rw [hvk, Option.some_bind', hvs, Option.some_bind', hva, Option.some_bind']

/-- C8 counterexample: on the empty input the bridge raises (the
`text[-1]` indexing happens outside the `try` block), rather than
returning a result; the outer `none` models the escaping exception. -/
theorem C8_counterexample :
    decode_key_event_as_window_system_key ⟨1, 2, 3, 1, 2, 4, 8⟩ [] = none := by
  decide

/-- C8 (amended): on every NONEMPTY input string the window-system bridge
returns without raising: either a converted event or the absent result;
decode failures are caught and become absent.  (On the empty string the
`text[-1]` indexing raises outside the `try` block.) -/
theorem C8_theorem (gl : GlfwConstants) (text : List Char) (h : text ≠ []) :
    ∃ r, decode_key_event_as_window_system_key gl text = some r := by
  unfold decode_key_event_as_window_system_key
  cases hl : text.getLast? with
  | none => exact absurd (List.getLast?_eq_none_iff.mp hl) h
  | some trailer =>
    show ∃ r,
      (match decode_key_event ((text.drop 2).dropLast) trailer with
        | none => some none
        | some k =>
          match k.as_window_system_event gl with
          | none => none
          | some w => some (some w)) = some r
    cases hd : decode_key_event ((text.drop 2).dropLast) trailer with
    | none => exact ⟨none, rfl⟩
    | some k =>
      obtain ⟨w, hw⟩ := decoded_event_converts _ _ _ gl hd
      show ∃ r,
        (match k.as_window_system_event gl with
          | none => none
          | some w => some (some w)) = some r
      rw [hw]
      exact ⟨some w, rfl⟩

/-- C8 witness at a concrete nonempty input. -/
theorem C8_witness :
    ("\x1b[xyz".toList ≠ []) ∧
    ∃ r, decode_key_event_as_window_system_key ⟨1, 2, 3, 1, 2, 4, 8⟩ "\x1b[xyz".toList = some r :=
  ⟨by decide, C8_theorem ⟨1, 2, 3, 1, 2, 4, 8⟩ "\x1b[xyz".toList (by decide)⟩

/-! ### Key-name / key-number analysis for the round trip (C1) -/

theorem chr_eq_toNat (n : Nat) (c : Char) (h : chr n = some c) : c.toNat = n := by
  unfold chr at h
  by_cases hv : Nat.isValidChar n
  · rw [if_pos hv, Option.some_inj] at h
    subst h
    show (Char.ofNat n).toNat = n
    unfold Char.ofNat
    rw [dif_pos hv]
    show (Char.ofNatAux n hv).toNat = n
    unfold Char.ofNatAux Char.toNat UInt32.toNat
    simp
  · rw [if_neg hv] at h
    simp at h

theorem key_name_indep (u v : Char) (k : Nat) (h13 : k ≠ 13) : key_name u k = key_name v k := by
  unfold key_name
  by_cases h0 : k = 0
  · rw [if_pos h0, if_pos h0]
  · rw [if_neg h0, if_neg h0, if_pos h13, if_pos h13]

theorem alist_get_eq_none {α β : Type} [DecidableEq α] (l : List (α × β)) (x : α)
    (h : ∀ p ∈ l, p.1 ≠ x) : alist_get l x = none := by
  induction l with
  | nil => rfl
  | cons p rest ih =>
    obtain ⟨pk, pv⟩ := p
    show (if x = pk then some pv else alist_get rest x) = none
    rw [if_neg (fun hx => (h (pk, pv) (by simp)) hx.symm)]
    exact ih (fun q hq => h q (by simp [hq]))

theorem name_lookup_single_none (c : Char) :
    alist_get get_name_to_functional_number_map [c] = none := by
  apply alist_get_eq_none
  intro p hp
  have hlen : 2 ≤ p.1.length := by
    have hall : ∀ q ∈ get_name_to_functional_number_map, 2 ≤ q.1.length := by decide
    exact hall p hp
  intro hx
  rw [hx] at hlen
  simp at hlen

set_option maxRecDepth 8192 in
theorem functional_table_spec :
    ∀ p ∈ functional_key_number_to_name_map,
      (csi_number_for_name p.2).isSome = true ∧
      (p.2 = "ENTER".toList ↔ (csi_number_for_name p.2).getD 0 = 13) ∧
      (csi_number_for_name p.2).getD 0 ≠ 0 ∧
      (csi_number_for_name p.2).getD 0 ≠ 1 ∧
      ((csi_number_for_name p.2).getD 0 ≠ 13 →
        key_name 'u' ((csi_number_for_name p.2).getD 0) = some p.2) := by
  decide

theorem csi_values_functional :
    ∀ p ∈ csi_number_to_functional_number_map,
      (alist_get functional_key_number_to_name_map p.2).isSome = true := by
  decide

/-- The central name/number correspondence: any name the decoder's
`key_name` can produce maps back (via `csi_number_for_name`) to a number
from which `key_name` recovers the same name, with `"ENTER"` the only
trailer-sensitive case. -/
theorem name_num_spec (T : Char) (n : Nat) (s : List Char) (h : key_name T n = some s) :
    ∃ k : Nat, csi_number_for_name s = some k ∧
      (s = "ENTER".toList ↔ k = 13) ∧
      (s ≠ "ENTER".toList → ∀ u : Char, key_name u k = some s) ∧
      (k = 0 ↔ s = []) ∧
      (k = 1 ↔ s = "\x01".toList) := by
  unfold key_name at h
  by_cases h0 : n = 0
  · rw [if_pos h0, Option.some_inj] at h
    subst h
    refine ⟨0, by decide, by decide, fun _ u => ?_, by decide, by decide⟩
    unfold key_name
    rw [if_pos rfl]
  · rw [if_neg h0] at h
    by_cases h13 : n ≠ 13
    · rw [if_pos h13] at h
      cases hl : alist_get functional_key_number_to_name_map
          ((alist_get csi_number_to_functional_number_map n).getD n) with
      | some ans =>
        rw [hl, Option.some_inj] at h
        subst h
        have hspec := functional_table_spec _ (alist_get_mem _ _ _ hl)
        obtain ⟨hsome, hent, hk0, hk1, hrec⟩ := hspec
        cases hck : csi_number_for_name ans with
        | none => rw [hck] at hsome; simp at hsome
        | some k =>
          rw [hck] at hent hk0 hk1 hrec
          simp only [Option.getD_some] at hent hk0 hk1 hrec
          refine ⟨k, rfl, hent, fun hne u => ?_, ?_, ?_⟩
          · have h13k : k ≠ 13 := fun hk => hne (hent.mpr hk)
            rw [key_name_indep u 'u' k h13k]
            exact hrec h13k
          · refine ⟨fun hk => absurd hk hk0, fun hs => ?_⟩
            rw [hs, show csi_number_for_name ([] : List Char) = some 0 from rfl,
              Option.some_inj] at hck
            exact hck.symm
          · refine ⟨fun hk => absurd hk hk1, fun hs => ?_⟩
            rw [hs, show csi_number_for_name ("\x01".toList) = some 1 from by decide,
              Option.some_inj] at hck
            exact hck.symm
      | none =>
        rw [hl] at h
        cases hc : chr ((alist_get csi_number_to_functional_number_map n).getD n) with
        | none => rw [hc] at h; simp at h
        | some c =>
          rw [hc] at h
          simp only [Option.map_some'] at h
          rw [Option.some_inj] at h
          subst h
          have hcsinone : alist_get csi_number_to_functional_number_map n = none := by
            cases hcsi : alist_get csi_number_to_functional_number_map n with
            | none => rfl
            | some f =>
              exfalso
              have hfv := csi_values_functional _ (alist_get_mem _ _ _ hcsi)
              rw [hcsi] at hl
              simp only [Option.getD_some] at hl
              rw [show ((n, f) : Nat × Nat).2 = f from rfl] at hfv
              rw [hl] at hfv
              simp at hfv
          rw [hcsinone] at hl hc
          simp only [Option.getD_none] at hl hc
          have htn : c.toNat = n := chr_eq_toNat n c hc
          refine ⟨n, ?_, ?_, fun _ u => ?_, ?_, ?_⟩
          · unfold csi_number_for_name
            rw [if_neg (by simp), name_lookup_single_none c]
            show some c.toNat = some n
            rw [htn]
          · refine ⟨fun hs => ?_, fun hk => absurd hk h13⟩
            have hll := congrArg List.length hs
            simp at hll
          · unfold key_name
            rw [if_neg h0, if_pos h13, hcsinone]
            simp only [Option.getD_none]
            rw [hl, hc]
            rfl
          · refine ⟨fun hk => absurd hk h0, fun hs => ?_⟩
            simp at hs
          · refine ⟨fun hk => ?_, fun hs => ?_⟩
            · subst hk
              have h1c : c = '\x01' := by
                rw [show chr 1 = some '\x01' from by decide, Option.some_inj] at hc
                exact hc.symm
              rw [h1c]
              rfl
            · have hc1 : c = '\x01' := by
                rw [show "\x01".toList = ['\x01'] from rfl] at hs
                exact (List.cons.inj hs).1
              rw [← htn, hc1]
              decide
    · rw [if_neg h13, Option.some_inj] at h
      push_neg at h13
      subst h
      by_cases hu : T = 'u'
      · rw [if_pos hu]
        refine ⟨13, by decide, by decide, fun hne => absurd rfl hne, by decide, by decide⟩
      · rw [if_neg hu]
        refine ⟨57366, by decide, by decide, fun _ u => ?_, by decide, by decide⟩
        rw [key_name_indep u 'u' 57366 (by decide)]
        decide

/-- Trailer selection and key recovery: for a decoder-producible name `s`
with number `k`, either the encoder picks a letter trailer (forcing the
first integer to 1) and the letter alone recovers the key, or it picks
`u`/`~`, emits `k` unforced, and `key_name` at the chosen trailer
recovers `s` from `k`. -/
theorem key_recovery (s : List Char) (k : Nat)
    (hck : csi_number_for_name s = some k)
    (hent : s = "ENTER".toList ↔ k = 13)
    (hind : s ≠ "ENTER".toList → ∀ u : Char, key_name u k = some s) :
    ("ABCDHFPQRS".toList.contains (encode_trailer_final s k) = true ∧
      (if encode_trailer0 s k ≠ 'u' then 1 else k) = 1 ∧
      key_name (encode_trailer_final s k)
        ((alist_get letter_trailer_to_csi_number_map (encode_trailer_final s k)).getD 0) =
        some s) ∨
    ("ABCDHFPQRS".toList.contains (encode_trailer_final s k) = false ∧
      (if encode_trailer0 s k ≠ 'u' then 1 else k) = k ∧
      key_name (encode_trailer_final s k) k = some s) := by
  by_cases hsE : s = "ENTER".toList
  · right
    have hk13 := hent.mp hsE
    subst hsE
    subst hk13
    exact ⟨by decide, by decide, by decide⟩
  · have h13 : k ≠ 13 := fun hk => hsE (hent.mpr hk)
    have hall := hind hsE
    cases hlt : alist_get get_csi_number_to_letter_trailer_map k with
    | none =>
      right
      have ht0 : encode_trailer0 s k = 'u' := by
        unfold encode_trailer0
        rw [if_neg hsE, hlt]
        rfl
      have hfin : encode_trailer_final s k = '~' ∨ encode_trailer_final s k = 'u' := by
        unfold encode_trailer_final
        cases hnf : alist_get get_name_to_functional_number_map s with
        | none => right; exact ht0
        | some fn' =>
          by_cases htl : tilde_trailers.contains fn' = true
          · left
            show (if tilde_trailers.contains fn' = true then '~' else encode_trailer0 s k) = '~'
            rw [if_pos htl]
          · right
            show (if tilde_trailers.contains fn' = true then '~' else encode_trailer0 s k) = 'u'
            rw [if_neg htl]
            exact ht0
      refine ⟨?_, ?_, hall _⟩
      · rcases hfin with hf | hf <;> rw [hf] <;> decide
      · rw [ht0]
        simp
    | some L =>
      have hmemL : (k, L) ∈ get_csi_number_to_letter_trailer_map := alist_get_mem _ _ _ hlt
      simp only [get_csi_number_to_letter_trailer_map, letter_trailer_to_csi_number_map,
        List.map_cons, List.map_nil, List.mem_cons, List.not_mem_nil, or_false,
        Prod.mk.injEq] at hmemL
      rcases hmemL with ⟨hk, hL⟩ | ⟨hk, hL⟩ | ⟨hk, hL⟩ | ⟨hk, hL⟩ | ⟨hk, hL⟩ |
        ⟨hk, hL⟩ | ⟨hk, hL⟩ | ⟨hk, hL⟩ | ⟨hk, hL⟩ | ⟨hk, hL⟩ <;> subst hk <;> subst hL
      · left
        obtain rfl : "UP".toList = s :=
          Option.some_inj.mp ((by decide : key_name 'u' 57352 = some "UP".toList).symm.trans
            (hall 'u'))
        exact ⟨by decide, by decide, by decide⟩
      · left
        obtain rfl : "DOWN".toList = s :=
          Option.some_inj.mp ((by decide : key_name 'u' 57353 = some "DOWN".toList).symm.trans
            (hall 'u'))
        exact ⟨by decide, by decide, by decide⟩
      · left
        obtain rfl : "RIGHT".toList = s :=
          Option.some_inj.mp ((by decide : key_name 'u' 57351 = some "RIGHT".toList).symm.trans
            (hall 'u'))
        exact ⟨by decide, by decide, by decide⟩
      · left
        obtain rfl : "LEFT".toList = s :=
          Option.some_inj.mp ((by decide : key_name 'u' 57350 = some "LEFT".toList).symm.trans
            (hall 'u'))
        exact ⟨by decide, by decide, by decide⟩
      · left
        obtain rfl : "END".toList = s :=
          Option.some_inj.mp ((by decide : key_name 'u' 8 = some "END".toList).symm.trans
            (hall 'u'))
        exact ⟨by decide, by decide, by decide⟩
      · left
        obtain rfl : "HOME".toList = s :=
          Option.some_inj.mp ((by decide : key_name 'u' 7 = some "HOME".toList).symm.trans
            (hall 'u'))
        exact ⟨by decide, by decide, by decide⟩
      · left
        obtain rfl : "F1".toList = s :=
          Option.some_inj.mp ((by decide : key_name 'u' 11 = some "F1".toList).symm.trans
            (hall 'u'))
        exact ⟨by decide, by decide, by decide⟩
      · left
        obtain rfl : "F2".toList = s :=
          Option.some_inj.mp ((by decide : key_name 'u' 12 = some "F2".toList).symm.trans
            (hall 'u'))
        exact ⟨by decide, by decide, by decide⟩
      · exact absurd rfl h13
      · left
        obtain rfl : "F4".toList = s :=
          Option.some_inj.mp ((by decide : key_name 'u' 14 = some "F4".toList).symm.trans
            (hall 'u'))
        exact ⟨by decide, by decide, by decide⟩

/-- Recovery of a shifted/alternate key name under the encoder's final
trailer: trailer-independent unless the name is `"ENTER"`, in which case
the trailer is known to be `u`. -/
theorem sub_name_recovery (Tf : Char) (s : List Char) (k : Nat)
    (hent : s = "ENTER".toList ↔ k = 13)
    (hind : s ≠ "ENTER".toList → ∀ u : Char, key_name u k = some s)
    (hTf : s = "ENTER".toList → Tf = 'u') :
    key_name Tf k = some s := by
  by_cases hsE : s = "ENTER".toList
  · have hk13 := hent.mp hsE
    rw [hTf hsE, hk13, hsE]
    decide
  · exact hind hsE Tf

/-! ### Payload reassembly and reparsing -/

theorem decode_parts1 (F : List Char) (T : Char) (hF : ';' ∉ F) :
    decode_key_event F T =
      (get_sub_sections F 0).bind fun f1 => decode_from_sections T f1 [] [] := by
  unfold decode_key_event
  rw [splitOn_of_not_mem hF]
  rw [if_neg (by simp), if_neg (by simp)]
  rfl

theorem decode_parts2 (F B : List Char) (T : Char) (hF : ';' ∉ F) (hB : ';' ∉ B) :
    decode_key_event (F ++ ';' :: B) T =
      (get_sub_sections F 0).bind fun f1 =>
      (get_sub_sections B 1).bind fun f2 => decode_from_sections T f1 f2 [] := by
  unfold decode_key_event
  rw [splitOn_append_sep hF, splitOn_of_not_mem hB]
  rw [if_pos (by simp), if_neg (by simp)]
  rfl

theorem decode_parts3 (F B D : List Char) (T : Char) (hF : ';' ∉ F) (hB : ';' ∉ B)
    (hD : ';' ∉ D) :
    decode_key_event (F ++ ';' :: (B ++ ';' :: D)) T =
      (get_sub_sections F 0).bind fun f1 =>
      (get_sub_sections B 1).bind fun f2 =>
      (get_sub_sections D 0).bind fun f3 => decode_from_sections T f1 f2 f3 := by
  unfold decode_key_event
  rw [splitOn_append_sep hF, splitOn_append_sep hB, splitOn_of_not_mem hD]
  rw [if_pos (by simp), if_pos (by simp)]
  rfl

theorem semi_not_mem_joinColon (l : List Nat) :
    ';' ∉ joinColon (l.map natToStr) := by
  induction l with
  | nil => simp [joinColon]
  | cons x r ih =>
    cases r with
    | nil => exact semi_not_mem_natToStr x
    | cons y r2 =>
      show ';' ∉ joinColon (natToStr x :: natToStr y :: r2.map natToStr)
      unfold joinColon
      intro hmem
      rcases List.mem_append.mp hmem with h1 | h1
      · exact semi_not_mem_natToStr x h1
      · rcases List.mem_cons.mp h1 with h2 | h2
        · exact absurd h2 (by decide)
        · exact ih h2

theorem semi_not_mem_first (e : KeyEvent) (k sk ak : Nat) :
    ';' ∉ encode_first_num e k sk ak := by
  unfold encode_first_num
  by_cases h : k ≠ 1 ∨ e.mods ≠ 0 ∨ sk ≠ 0 ∨ ak ≠ 0 ∨ e.text ≠ []
  · rw [if_pos h]; exact semi_not_mem_natToStr k
  · rw [if_neg h]; simp

theorem semi_not_mem_sa (sk ak : Nat) : ';' ∉ encode_shifted_alternate sk ak := by
  unfold encode_shifted_alternate
  by_cases h : sk ≠ 0 ∨ ak ≠ 0
  · rw [if_pos h]
    intro hmem
    rcases List.mem_cons.mp hmem with h1 | h1
    · exact absurd h1 (by decide)
    · rcases List.mem_append.mp h1 with h2 | h2
      · by_cases hsk : sk ≠ 0
        · rw [if_pos hsk] at h2; exact semi_not_mem_natToStr sk h2
        · rw [if_neg hsk] at h2; simp at h2
      · by_cases hak : ak ≠ 0
        · rw [if_pos hak] at h2
          rcases List.mem_cons.mp h2 with h3 | h3
          · exact absurd h3 (by decide)
          · exact semi_not_mem_natToStr ak h3
        · rw [if_neg hak] at h2; simp at h2
  · rw [if_neg h]; simp

theorem encode_mod_mask_eq (e : KeyEvent) (h0 : 0 ≤ e.mods) (h16 : e.mods < 16)
    (hs : e.shift = decide (pyAnd e.mods SHIFT ≠ 0))
    (ha : e.alt = decide (pyAnd e.mods ALT ≠ 0))
    (hc : e.ctrl = decide (pyAnd e.mods CTRL ≠ 0))
    (hsu : e.super = decide (pyAnd e.mods SUPER ≠ 0)) :
    ((encode_mod_mask e : Nat) : Int) = e.mods := by
  obtain ⟨n, hn⟩ : ∃ n : Nat, e.mods = (n : Int) := ⟨e.mods.toNat, (Int.toNat_of_nonneg h0).symm⟩
  rw [hn] at hs ha hc hsu h16 ⊢
  have hn16 : n < 16 := by exact_mod_cast h16
  unfold encode_mod_mask
  rw [hs, ha, hc, hsu]
  interval_cases n <;> decide

theorem decode_sequence_concat (rest : List Char) (T : Char) :
    decode_sequence ('\x1b' :: '[' :: rest ++ [T]) = decode_key_event rest T := by
  unfold decode_sequence
  rw [show ('\x1b' :: '[' :: rest ++ [T]) = ('\x1b' :: '[' :: rest) ++ [T] from by simp]
  rw [List.getLast?_concat]
  show decode_key_event (((('\x1b' :: '[' :: rest) ++ [T]).drop 2).dropLast) T = _
  rw [show (('\x1b' :: '[' :: rest) ++ [T]).drop 2 = rest ++ [T] from by simp]
  rw [List.dropLast_concat]

theorem encode_payload_cons (e : KeyEvent) (k sk ak : Nat) :
    encode_payload e k sk ak =
      '\x1b' :: '[' :: (encode_first_num e k sk ak ++
        (encode_shifted_alternate sk ak ++ (encode_mod_action e ++ encode_text e))) := by
  unfold encode_payload
  simp [List.append_assoc]

theorem gss_join_text (cs : List Char) (h : cs ≠ []) :
    get_sub_sections (joinColon (cs.map (fun c => natToStr c.toNat))) 0 =
      some (cs.map (fun c => c.toNat)) := by
  cases cs with
  | nil => exact absurd rfl h
  | cons c rest =>
    have hmm : (c :: rest).map (fun c => natToStr c.toNat) =
        ((c :: rest).map (fun c => c.toNat)).map natToStr := by
      rw [List.map_map]
      rfl
    rw [hmm]
    exact joinColon_sections c.toNat (rest.map (fun c => c.toNat)) 0

theorem semi_not_mem_joinColon_text (cs : List Char) :
    ';' ∉ joinColon (cs.map (fun c => natToStr c.toNat)) := by
  have hmm : cs.map (fun c => natToStr c.toNat) =
      (cs.map (fun c => c.toNat)).map natToStr := by
    rw [List.map_map]
    rfl
  rw [hmm]
  exact semi_not_mem_joinColon _

theorem semi_not_mem_modact (a b : Nat) : ';' ∉ (natToStr a ++ ':' :: natToStr b) := by
  intro hm
  rcases List.mem_append.mp hm with h1 | h1
  · exact semi_not_mem_natToStr _ h1
  · rcases List.mem_cons.mp h1 with h2 | h2
    · exact absurd h2 (by decide)
    · exact semi_not_mem_natToStr _ h2

/-- Reparsing the encoder's second and third sections appended after any
semicolon-free first section: the decoder sees exactly
`mod_section_ints` and `text_section_ints`. -/
theorem decode_with_tail (F : List Char) (hF : ';' ∉ F) (T : Char) (e : KeyEvent) :
    decode_key_event (F ++ (encode_mod_action e ++ encode_text e)) T =
      (get_sub_sections F 0).bind fun f1 =>
        decode_from_sections T f1 (mod_section_ints e) (text_section_ints e) := by
  by_cases hm3 : e.mods ≠ 0 ∨ 1 < event_action e.type ∨ e.text ≠ []
  · by_cases hAM : 1 < event_action e.type ∨ encode_mod_mask e ≠ 0
    · by_cases htA : 1 < event_action e.type
      · have hma : encode_mod_action e =
            ';' :: (natToStr (encode_mod_mask e + 1) ++ ':' :: natToStr (event_action e.type)) := by
          unfold encode_mod_action
          rw [if_pos hm3, if_pos hAM, if_pos htA]
          rfl
        have hMi : mod_section_ints e = [encode_mod_mask e + 1, event_action e.type] := by
          unfold mod_section_ints
          rw [if_pos hm3, if_pos hAM, if_pos htA]
        have hB2 : get_sub_sections
            (natToStr (encode_mod_mask e + 1) ++ ':' :: natToStr (event_action e.type)) 1 =
            some [encode_mod_mask e + 1, event_action e.type] :=
          get_sub_sections_cons _ _ _ _ (get_sub_sections_single _ _)
        by_cases htxt : e.text ≠ []
        · have htb : encode_text e =
              ';' :: joinColon (e.text.map (fun c => natToStr c.toNat)) := by
            unfold encode_text
            rw [if_pos htxt]
          have hTi : text_section_ints e = e.text.map (fun c => c.toNat) := by
            unfold text_section_ints
            rw [if_pos htxt]
          have hD2 := gss_join_text e.text htxt
          rw [hma, htb]
          simp only [List.cons_append]
          rw [decode_parts3 F
            (natToStr (encode_mod_mask e + 1) ++ ':' :: natToStr (event_action e.type))
            (joinColon (e.text.map (fun c => natToStr c.toNat))) T hF
            (semi_not_mem_modact _ _) (semi_not_mem_joinColon_text _)]
          simp only [hB2, hD2, hMi, hTi, Option.some_bind']
        · have htb : encode_text e = [] := by
            unfold encode_text
            rw [if_neg htxt]
          have hTi : text_section_ints e = [] := by
            unfold text_section_ints
            rw [if_neg htxt]
          rw [hma, htb, List.append_nil]
          rw [decode_parts2 F
            (natToStr (encode_mod_mask e + 1) ++ ':' :: natToStr (event_action e.type)) T hF
            (semi_not_mem_modact _ _)]
          simp only [hB2, hMi, hTi, Option.some_bind']
      · have hma : encode_mod_action e = ';' :: natToStr (encode_mod_mask e + 1) := by
          unfold encode_mod_action
          rw [if_pos hm3, if_pos hAM, if_neg htA]
          simp
        have hMi : mod_section_ints e = [encode_mod_mask e + 1] := by
          unfold mod_section_ints
          rw [if_pos hm3, if_pos hAM, if_neg htA]
        have hB2 : get_sub_sections (natToStr (encode_mod_mask e + 1)) 1 =
            some [encode_mod_mask e + 1] := get_sub_sections_single _ _
        by_cases htxt : e.text ≠ []
        · have htb : encode_text e =
              ';' :: joinColon (e.text.map (fun c => natToStr c.toNat)) := by
            unfold encode_text
            rw [if_pos htxt]
          have hTi : text_section_ints e = e.text.map (fun c => c.toNat) := by
            unfold text_section_ints
            rw [if_pos htxt]
          have hD2 := gss_join_text e.text htxt
          rw [hma, htb]
          simp only [List.cons_append]
          rw [decode_parts3 F (natToStr (encode_mod_mask e + 1))
            (joinColon (e.text.map (fun c => natToStr c.toNat))) T hF
            (semi_not_mem_natToStr _) (semi_not_mem_joinColon_text _)]
          simp only [hB2, hD2, hMi, hTi, Option.some_bind']
        · have htb : encode_text e = [] := by
            unfold encode_text
            rw [if_neg htxt]
          have hTi : text_section_ints e = [] := by
            unfold text_section_ints
            rw [if_neg htxt]
          rw [hma, htb, List.append_nil]
          rw [decode_parts2 F (natToStr (encode_mod_mask e + 1)) T hF
            (semi_not_mem_natToStr _)]
          simp only [hB2, hMi, hTi, Option.some_bind']
    · by_cases htxt : e.text ≠ []
      · have hma : encode_mod_action e = [';'] := by
          unfold encode_mod_action
          rw [if_pos hm3, if_neg hAM, if_pos htxt]
        have hMi : mod_section_ints e = [1] := by
          unfold mod_section_ints
          rw [if_pos hm3, if_neg hAM, if_pos htxt]
        have htb : encode_text e =
            ';' :: joinColon (e.text.map (fun c => natToStr c.toNat)) := by
          unfold encode_text
          rw [if_pos htxt]
        have hTi : text_section_ints e = e.text.map (fun c => c.toNat) := by
          unfold text_section_ints
          rw [if_pos htxt]
        have hD2 := gss_join_text e.text htxt
        have hB2 : get_sub_sections ([] : List Char) 1 = some [1] := get_sub_sections_nil 1
        rw [hma, htb]
        simp only [List.cons_append]
        rw [show ((';' : Char) :: ([] ++ ';' :: joinColon (e.text.map (fun c => natToStr c.toNat)))) = (';' :: (([] : List Char) ++ ';' :: joinColon (e.text.map (fun c => natToStr c.toNat)))) from rfl]
        rw [decode_parts3 F ([] : List Char)
          (joinColon (e.text.map (fun c => natToStr c.toNat))) T hF
          (List.not_mem_nil ';') (semi_not_mem_joinColon_text _)]
        simp only [hB2, hD2, hMi, hTi, Option.some_bind']
      · have hma : encode_mod_action e = [] := by
          unfold encode_mod_action
          rw [if_pos hm3, if_neg hAM, if_neg htxt]
        have hMi : mod_section_ints e = [] := by
          unfold mod_section_ints
          rw [if_pos hm3, if_neg hAM, if_neg htxt]
        have htb : encode_text e = [] := by
          unfold encode_text
          rw [if_neg htxt]
        have hTi : text_section_ints e = [] := by
          unfold text_section_ints
          rw [if_neg htxt]
        rw [hma, htb, List.append_nil, List.append_nil]
        rw [decode_parts1 F T hF]
        simp only [hMi, hTi]
  · have hma : encode_mod_action e = [] := by
      unfold encode_mod_action
      rw [if_neg hm3]
    have hMi : mod_section_ints e = [] := by
      unfold mod_section_ints
      rw [if_neg hm3]
    have htxt : ¬e.text ≠ [] := fun hne => hm3 (Or.inr (Or.inr hne))
    have htb : encode_text e = [] := by
      unfold encode_text
      rw [if_neg htxt]
    have hTi : text_section_ints e = [] := by
      unfold text_section_ints
      rw [if_neg htxt]
    rw [hma, htb, List.append_nil, List.append_nil]
    rw [decode_parts1 F T hF]
    simp only [hMi, hTi]

theorem chr_join_text_ints (e : KeyEvent) : chr_join (text_section_ints e) = some e.text := by
  unfold text_section_ints
  by_cases h : e.text ≠ []
  · rw [if_pos h]
    exact chr_join_map_toNat e.text
  · rw [if_neg h]
    push_neg at h
    rw [h]
    rfl

theorem section_action_mod_ints (e : KeyEvent) :
    section_action (mod_section_ints e) = event_action e.type := by
  have h1 : 1 ≤ event_action e.type := by cases e.type <;> decide
  unfold mod_section_ints
  by_cases hm3 : e.mods ≠ 0 ∨ 1 < event_action e.type ∨ e.text ≠ []
  · rw [if_pos hm3]
    by_cases hAM : 1 < event_action e.type ∨ encode_mod_mask e ≠ 0
    · rw [if_pos hAM]
      by_cases htA : 1 < event_action e.type
      · rw [if_pos htA]
        rfl
      · rw [if_neg htA]
        show 1 = event_action e.type
        omega
    · rw [if_neg hAM]
      have htA : ¬1 < event_action e.type := fun h => hAM (Or.inl h)
      by_cases htxt : e.text ≠ []
      · rw [if_pos htxt]
        show 1 = event_action e.type
        omega
      · rw [if_neg htxt]
        show 1 = event_action e.type
        omega
  · rw [if_neg hm3]
    have htA : ¬1 < event_action e.type := fun h => hm3 (Or.inr (Or.inl h))
    show 1 = event_action e.type
    omega

theorem section_mods_mod_ints (e : KeyEvent) (h0 : 0 ≤ e.mods) (h16 : e.mods < 16)
    (hs : e.shift = decide (pyAnd e.mods SHIFT ≠ 0))
    (ha : e.alt = decide (pyAnd e.mods ALT ≠ 0))
    (hc : e.ctrl = decide (pyAnd e.mods CTRL ≠ 0))
    (hsu : e.super = decide (pyAnd e.mods SUPER ≠ 0)) :
    section_mods (mod_section_ints e) = e.mods := by
  have hmask := encode_mod_mask_eq e h0 h16 hs ha hc hsu
  unfold mod_section_ints
  by_cases hm3 : e.mods ≠ 0 ∨ 1 < event_action e.type ∨ e.text ≠ []
  · rw [if_pos hm3]
    by_cases hAM : 1 < event_action e.type ∨ encode_mod_mask e ≠ 0
    · rw [if_pos hAM]
      show ((encode_mod_mask e + 1 : Nat) : Int) - 1 = e.mods
      omega
    · rw [if_neg hAM]
      have hmz : encode_mod_mask e = 0 := by
        by_contra hne
        exact hAM (Or.inr hne)
      have hmods0 : e.mods = 0 := by
        rw [← hmask, hmz]
        rfl
      by_cases htxt : e.text ≠ []
      · rw [if_pos htxt]
        show ((1 : Nat) : Int) - 1 = e.mods
        omega
      · rw [if_neg htxt]
        show (0 : Int) = e.mods
        omega
  · rw [if_neg hm3]
    have hmods0 : ¬e.mods ≠ 0 := fun h => hm3 (Or.inl h)
    show (0 : Int) = e.mods
    omega

/-- Closing step of the round trip: with the three names recovered and the
booleans consistent with the (small) mod value, `decode_from_sections` on
the re-parsed encoder sections rebuilds the event exactly. -/
theorem dfs_close (e : KeyEvent) (Tf : Char) (f1 : List Nat)
    (hk : key_name Tf (effective_keynum Tf f1) = some e.key)
    (hs : key_name Tf (section_get1 f1) = some e.shifted_key)
    (ha : key_name Tf (section_get2 f1) = some e.alternate_key)
    (h0 : 0 ≤ e.mods) (h16 : e.mods < 16)
    (hbs : e.shift = decide (pyAnd e.mods SHIFT ≠ 0))
    (hba : e.alt = decide (pyAnd e.mods ALT ≠ 0))
    (hbc : e.ctrl = decide (pyAnd e.mods CTRL ≠ 0))
    (hbsu : e.super = decide (pyAnd e.mods SUPER ≠ 0)) :
    decode_from_sections Tf f1 (mod_section_ints e) (text_section_ints e) = some e := by
  have hM := section_mods_mod_ints e h0 h16 hbs hba hbc hbsu
  rw [dfs_build Tf f1 (mod_section_ints e) (text_section_ints e) e.key e.shifted_key
    e.alternate_key e.type e.text hk hs ha (section_action_mod_ints e) (chr_join_text_ints e)]
  rw [Option.some_inj]
  rw [hM]
  cases e with
  | mk ty mo kk tx skk akk bs ba bc bsu =>
    rw [KeyEvent.mk.injEq]
    exact ⟨rfl, rfl, rfl, rfl, rfl, rfl, hbs.symm, hba.symm, hbc.symm, hbsu.symm⟩

/-- Core of the round trip: an event whose names are `key_name`-producible,
whose mods lie in `[0, 16)` with booleans derived from them, which is not
the all-default `"\x01"` event and whose shifted/alternate `"ENTER"` (if
any) comes with a `u` trailer, survives encode-then-decode. -/
theorem roundtrip_core (e : KeyEvent) (T : Char) (nk ns na : Nat)
    (hkT : key_name T nk = some e.key)
    (hsT : key_name T ns = some e.shifted_key)
    (haT : key_name T na = some e.alternate_key)
    (h0 : 0 ≤ e.mods) (h16 : e.mods < 16)
    (hbs : e.shift = decide (pyAnd e.mods SHIFT ≠ 0))
    (hba : e.alt = decide (pyAnd e.mods ALT ≠ 0))
    (hbc : e.ctrl = decide (pyAnd e.mods CTRL ≠ 0))
    (hbsu : e.super = decide (pyAnd e.mods SUPER ≠ 0))
    (hii : ¬(e.key = "\x01".toList ∧ e.mods = 0 ∧ e.shifted_key = [] ∧
             e.alternate_key = [] ∧ e.text = []))
    (hiii : (e.shifted_key = "ENTER".toList ∨ e.alternate_key = "ENTER".toList) →
            encode_trailer e.key = some 'u') :
    (encode_key_event e).bind decode_sequence = some e := by
  obtain ⟨k, hck, hentk, hindk, hk0, hk1⟩ := name_num_spec T nk e.key hkT
  obtain ⟨sk, hcs, hents, hinds, hs0, hs1⟩ := name_num_spec T ns e.shifted_key hsT
  obtain ⟨ak, hca, henta, hinda, ha0, ha1⟩ := name_num_spec T na e.alternate_key haT
  have hTfu : (e.shifted_key = "ENTER".toList ∨ e.alternate_key = "ENTER".toList) →
      encode_trailer_final e.key k = 'u' := by
    intro hE
    have h := hiii hE
    unfold encode_trailer at h
    rw [hck, Option.some_bind'] at h
    exact Option.some_inj.mp h
  have hsrec : key_name (encode_trailer_final e.key k) sk = some e.shifted_key :=
    sub_name_recovery _ _ _ hents hinds (fun hE => hTfu (Or.inl hE))
  have harec : key_name (encode_trailer_final e.key k) ak = some e.alternate_key :=
    sub_name_recovery _ _ _ henta hinda (fun hE => hTfu (Or.inr hE))
  have hkn0 : key_name (encode_trailer_final e.key k) 0 = some ([] : List Char) := by
    unfold key_name
    rw [if_pos rfl]
  rw [encode_build e k sk ak hck hcs hca, Option.some_bind']
  rcases key_recovery e.key k hck hentk hindk with ⟨hcont, hforce, hrec⟩ | ⟨hcont, hforce, hrec⟩
  · rw [hforce]
    have hF : ';' ∉ encode_first_num e 1 sk ak ++ encode_shifted_alternate sk ak := by
      intro hm
      rcases List.mem_append.mp hm with h1 | h1
      · exact semi_not_mem_first e 1 sk ak h1
      · exact semi_not_mem_sa sk ak h1
    rw [encode_payload_cons, decode_sequence_concat, ← List.append_assoc,
        decode_with_tail (encode_first_num e 1 sk ak ++ encode_shifted_alternate sk ak) hF
          (encode_trailer_final e.key k) e]
    have heffL : ∀ f1 : List Nat,
        key_name (encode_trailer_final e.key k)
          (effective_keynum (encode_trailer_final e.key k) f1) = some e.key := by
      intro f1
      unfold effective_keynum
      rw [if_pos hcont]
      exact hrec
    by_cases hsk0 : sk ≠ 0
    · have hC : (1 : Nat) ≠ 1 ∨ e.mods ≠ 0 ∨ sk ≠ 0 ∨ ak ≠ 0 ∨ e.text ≠ [] :=
        Or.inr (Or.inr (Or.inl hsk0))
      have hF1 : encode_first_num e 1 sk ak = natToStr 1 := by
        unfold encode_first_num
        rw [if_pos hC]
      by_cases hak0 : ak ≠ 0
      · have hSA : encode_shifted_alternate sk ak =
            ':' :: (natToStr sk ++ ':' :: natToStr ak) := by
          unfold encode_shifted_alternate
          rw [if_pos (Or.inl hsk0), if_pos hsk0, if_pos hak0]
          rfl
        rw [hF1, hSA,
          get_sub_sections_cons 1 0 (natToStr sk ++ ':' :: natToStr ak) [sk, ak]
            (get_sub_sections_cons sk 0 (natToStr ak) [ak] (get_sub_sections_single ak 0)),
          Option.some_bind']
        exact dfs_close e _ [1, sk, ak] (heffL [1, sk, ak]) hsrec harec h0 h16 hbs hba hbc hbsu
      · have hak : ak = 0 := not_ne_iff.mp hak0
        have hae : e.alternate_key = [] := ha0.mp hak
        have hSA : encode_shifted_alternate sk ak = ':' :: natToStr sk := by
          unfold encode_shifted_alternate
          rw [if_pos (Or.inl hsk0), if_pos hsk0, if_neg hak0]
          simp
        rw [hF1, hSA,
          get_sub_sections_cons 1 0 (natToStr sk) [sk] (get_sub_sections_single sk 0),
          Option.some_bind']
        exact dfs_close e _ [1, sk] (heffL [1, sk]) hsrec
          (by rw [hae]; exact hkn0) h0 h16 hbs hba hbc hbsu
    · have hsk : sk = 0 := not_ne_iff.mp hsk0
      have hse : e.shifted_key = [] := hs0.mp hsk
      by_cases hak0 : ak ≠ 0
      · have hC : (1 : Nat) ≠ 1 ∨ e.mods ≠ 0 ∨ sk ≠ 0 ∨ ak ≠ 0 ∨ e.text ≠ [] :=
          Or.inr (Or.inr (Or.inr (Or.inl hak0)))
        have hF1 : encode_first_num e 1 sk ak = natToStr 1 := by
          unfold encode_first_num
          rw [if_pos hC]
        have hSA : encode_shifted_alternate sk ak = ':' :: ':' :: natToStr ak := by
          unfold encode_shifted_alternate
          rw [if_pos (Or.inr hak0), if_neg hsk0, if_pos hak0]
          rfl
        rw [hF1, hSA,
          get_sub_sections_cons 1 0 (':' :: natToStr ak) [0, ak]
            (get_sub_sections_blank_cons 0 (natToStr ak) [ak] (get_sub_sections_single ak 0)),
          Option.some_bind']
        exact dfs_close e _ [1, 0, ak] (heffL [1, 0, ak])
          (by rw [hse]; exact hkn0) harec h0 h16 hbs hba hbc hbsu
      · have hak : ak = 0 := not_ne_iff.mp hak0
        have hae : e.alternate_key = [] := ha0.mp hak
        have hSA : encode_shifted_alternate sk ak = [] := by
          unfold encode_shifted_alternate
          rw [if_neg (not_or.mpr ⟨hsk0, hak0⟩)]
        by_cases hC : (1 : Nat) ≠ 1 ∨ e.mods ≠ 0 ∨ sk ≠ 0 ∨ ak ≠ 0 ∨ e.text ≠ []
        · have hF1 : encode_first_num e 1 sk ak = natToStr 1 := by
            unfold encode_first_num
            rw [if_pos hC]
          rw [hF1, hSA, List.append_nil, get_sub_sections_single 1 0, Option.some_bind']
          exact dfs_close e _ [1] (heffL [1]) (by rw [hse]; exact hkn0)
            (by rw [hae]; exact hkn0) h0 h16 hbs hba hbc hbsu
        · have hF1 : encode_first_num e 1 sk ak = [] := by
            unfold encode_first_num
            rw [if_neg hC]
          rw [hF1, hSA, List.append_nil, get_sub_sections_nil 0, Option.some_bind']
          exact dfs_close e _ [0] (heffL [0]) (by rw [hse]; exact hkn0)
            (by rw [hae]; exact hkn0) h0 h16 hbs hba hbc hbsu
  · rw [hforce]
    have hF : ';' ∉ encode_first_num e k sk ak ++ encode_shifted_alternate sk ak := by
      intro hm
      rcases List.mem_append.mp hm with h1 | h1
      · exact semi_not_mem_first e k sk ak h1
      · exact semi_not_mem_sa sk ak h1
    rw [encode_payload_cons, decode_sequence_concat, ← List.append_assoc,
        decode_with_tail (encode_first_num e k sk ak ++ encode_shifted_alternate sk ak) hF
          (encode_trailer_final e.key k) e]
    have hcont' : ¬("ABCDHFPQRS".toList.contains (encode_trailer_final e.key k) = true) := by
      rw [hcont]
      exact Bool.false_ne_true
    have heffN : ∀ r : List Nat,
        key_name (encode_trailer_final e.key k)
          (effective_keynum (encode_trailer_final e.key k) (k :: r)) = some e.key := by
      intro r
      unfold effective_keynum
      rw [if_neg hcont']
      exact hrec
    by_cases hsk0 : sk ≠ 0
    · have hC : k ≠ 1 ∨ e.mods ≠ 0 ∨ sk ≠ 0 ∨ ak ≠ 0 ∨ e.text ≠ [] :=
        Or.inr (Or.inr (Or.inl hsk0))
      have hF1 : encode_first_num e k sk ak = natToStr k := by
        unfold encode_first_num
        rw [if_pos hC]
      by_cases hak0 : ak ≠ 0
      · have hSA : encode_shifted_alternate sk ak =
            ':' :: (natToStr sk ++ ':' :: natToStr ak) := by
          unfold encode_shifted_alternate
          rw [if_pos (Or.inl hsk0), if_pos hsk0, if_pos hak0]
          rfl
        rw [hF1, hSA,
          get_sub_sections_cons k 0 (natToStr sk ++ ':' :: natToStr ak) [sk, ak]
            (get_sub_sections_cons sk 0 (natToStr ak) [ak] (get_sub_sections_single ak 0)),
          Option.some_bind']
        exact dfs_close e _ [k, sk, ak] (heffN [sk, ak]) hsrec harec h0 h16 hbs hba hbc hbsu
      · have hak : ak = 0 := not_ne_iff.mp hak0
        have hae : e.alternate_key = [] := ha0.mp hak
        have hSA : encode_shifted_alternate sk ak = ':' :: natToStr sk := by
          unfold encode_shifted_alternate
          rw [if_pos (Or.inl hsk0), if_pos hsk0, if_neg hak0]
          simp
        rw [hF1, hSA,
          get_sub_sections_cons k 0 (natToStr sk) [sk] (get_sub_sections_single sk 0),
          Option.some_bind']
        exact dfs_close e _ [k, sk] (heffN [sk]) hsrec
          (by rw [hae]; exact hkn0) h0 h16 hbs hba hbc hbsu
    · have hsk : sk = 0 := not_ne_iff.mp hsk0
      have hse : e.shifted_key = [] := hs0.mp hsk
      by_cases hak0 : ak ≠ 0
      · have hC : k ≠ 1 ∨ e.mods ≠ 0 ∨ sk ≠ 0 ∨ ak ≠ 0 ∨ e.text ≠ [] :=
          Or.inr (Or.inr (Or.inr (Or.inl hak0)))
        have hF1 : encode_first_num e k sk ak = natToStr k := by
          unfold encode_first_num
          rw [if_pos hC]
        have hSA : encode_shifted_alternate sk ak = ':' :: ':' :: natToStr ak := by
          unfold encode_shifted_alternate
          rw [if_pos (Or.inr hak0), if_neg hsk0, if_pos hak0]
          rfl
        rw [hF1, hSA,
          get_sub_sections_cons k 0 (':' :: natToStr ak) [0, ak]
            (get_sub_sections_blank_cons 0 (natToStr ak) [ak] (get_sub_sections_single ak 0)),
          Option.some_bind']
        exact dfs_close e _ [k, 0, ak] (heffN [0, ak])
          (by rw [hse]; exact hkn0) harec h0 h16 hbs hba hbc hbsu
      · have hak : ak = 0 := not_ne_iff.mp hak0
        have hae : e.alternate_key = [] := ha0.mp hak
        have hSA : encode_shifted_alternate sk ak = [] := by
          unfold encode_shifted_alternate
          rw [if_neg (not_or.mpr ⟨hsk0, hak0⟩)]
        by_cases hC : k ≠ 1 ∨ e.mods ≠ 0 ∨ sk ≠ 0 ∨ ak ≠ 0 ∨ e.text ≠ []
        · have hF1 : encode_first_num e k sk ak = natToStr k := by
            unfold encode_first_num
            rw [if_pos hC]
          rw [hF1, hSA, List.append_nil, get_sub_sections_single k 0, Option.some_bind']
          exact dfs_close e _ [k] (heffN []) (by rw [hse]; exact hkn0)
            (by rw [hae]; exact hkn0) h0 h16 hbs hba hbc hbsu
        · exfalso
          push_neg at hC
          obtain ⟨hCk, hCm, _, _, hCt⟩ := hC
          exact hii ⟨hk1.mp hCk, hCm, hse, hae, hCt⟩

set_option maxRecDepth 8192 in
/-- C1 counterexample to the unrestricted round-trip claim: the decoder
accepts payload `"1;17"` with trailer `u` (wire modifier value 17, so
`mods = 16`), but the encoder's modifier mask is rebuilt from the four
booleans only, so re-encoding drops the out-of-range bit and decoding the
encoder's output yields `mods = 0`, not the original event. -/
theorem C1_counterexample :
    decode_key_event "1;17".toList 'u' =
      some { type := EventType.PRESS, mods := 16, key := "\x01".toList } ∧
    (encode_key_event { type := EventType.PRESS, mods := 16, key := "\x01".toList }).bind
        decode_sequence ≠
      some { type := EventType.PRESS, mods := 16, key := "\x01".toList } := by
  constructor
  · decide
  · decide

/-- C1 (corrected): round-trip of the codec.  `decode(encode(e)) = e` does
not hold for every decoder-produced `e` (see `C1_counterexample`); it holds
for every decoder-produced event whose mods value lies in `[0, 16)` (so the
boolean fields faithfully represent it), which is not the bare `"\x01"`
event with no mods, shifted/alternate keys or text (whose encoding elides
the key number entirely), and whose shifted or alternate key, when it is
`"ENTER"`, comes with a key whose encoded trailer is `u` (otherwise the
trailer-sensitive name `ENTER`/`F3` flips). -/
theorem C1_theorem (csi : List Char) (T : Char) (e : KeyEvent)
    (hdec : decode_key_event csi T = some e)
    (hm0 : 0 ≤ e.mods) (hm16 : e.mods < 16)
    (hnontriv : ¬(e.key = "\x01".toList ∧ e.mods = 0 ∧ e.shifted_key = [] ∧
                  e.alternate_key = [] ∧ e.text = []))
    (hent : (e.shifted_key = "ENTER".toList ∨ e.alternate_key = "ENTER".toList) →
            encode_trailer e.key = some 'u') :
    (encode_key_event e).bind decode_sequence = some e := by
  obtain ⟨f1, f2, f3, h1, h2, h3, hdfs⟩ := decode_inversion csi T e hdec
  obtain ⟨hk, hs, ha, htx, hM, hA, hbs, hba, hbc, hbsu⟩ := dfs_inversion T f1 f2 f3 e hdfs
  exact roundtrip_core e T _ _ _ hk hs ha hm0 hm16 hbs hba hbc hbsu hnontriv hent

set_option maxRecDepth 8192 in
/-- C1 witness at the concrete payload `"97;5"` (ctrl plus the `a` key):
all hypotheses hold and the event survives encode-then-decode. -/
theorem C1_witness :
    decode_key_event "97;5".toList 'u' =
      some { type := EventType.PRESS, mods := 4, key := "a".toList, ctrl := true } ∧
    (encode_key_event { type := EventType.PRESS, mods := 4, key := "a".toList,
                        ctrl := true }).bind decode_sequence =
      some { type := EventType.PRESS, mods := 4, key := "a".toList, ctrl := true } :=
  ⟨by decide,
   C1_theorem "97;5".toList 'u'
     { type := EventType.PRESS, mods := 4, key := "a".toList, ctrl := true }
     (by decide) (by decide) (by decide) (by decide) (by decide)⟩
